import Mathlib

/-!
GTEngine: edge keys and the bump-map tangent solver.

Shallow embedding of

* `src/Source/Mathematics/GteEdgeKey.cpp`: the two specialisations of
  `EdgeKey<Ordered>` (directed keeps the pair, undirected stores it sorted);
* `src/Samples/Graphics/BumpMaps/SimpleBumpMapEffect.cpp`:
  `SimpleBumpMapEffect::ComputeTangent` and
  `SimpleBumpMapEffect::ComputeLightVectors`.

Scalars.  The C++ code computes in `float`.  The embedding is written over an
arbitrary linearly ordered field `K`, so that the same definitions run on `ℚ`
and can be read in exact real arithmetic on `ℝ`; rounding, infinities and NaN
are not modelled.  The square root used by `Length` lives in the vector
library, which is not part of the sources at hand, and is a parameter `sqrt`.

Integers.  The `int` vertex indices of the edge keys are only copied and
compared, never used in arithmetic, so they are modelled by `Int`; the
`unsigned int` entries of the index buffer are modelled by `Nat`.
-/

set_option linter.dupNamespace false

namespace gte

/-! ## Data model -/

/-- Stored state of `EdgeKey<Ordered>`: the member array `int V[2]`, as the two
fields `V0 = V[0]` and `V1 = V[1]`.  Equality of keys is equality of the
stored pair. -/
structure EdgeKey (Ordered : Bool) where
  /-- Element `V[0]`. -/
  V0 : Int
  /-- Element `V[1]`. -/
  V1 : Int
deriving DecidableEq

/-- Default constructors `EdgeKey<true>::EdgeKey()` and
`EdgeKey<false>::EdgeKey()`: both set `V[0] = V[1] = -1`. -/
def EdgeKey.EdgeKeyDefault (Ordered : Bool) : EdgeKey Ordered :=
  ⟨-1, -1⟩

/-- Constructors `EdgeKey<true>::EdgeKey(int v0, int v1)` (stores the pair as
given) and `EdgeKey<false>::EdgeKey(int v0, int v1)` (tests `v0 < v1`; stores
`(v0, v1)` when it holds and `(v1, v0)` otherwise). -/
def EdgeKey.EdgeKey : (Ordered : Bool) → Int → Int → EdgeKey Ordered
  | true, v0, v1 => ⟨v0, v1⟩
  | false, v0, v1 => if v0 < v1 then ⟨v0, v1⟩ else ⟨v1, v0⟩

/-- Two-component vector `Vector2<float>`; `x` is component `[0]` (texture
coordinate u) and `y` is component `[1]` (texture coordinate v). -/
@[ext]
structure Vector2 (K : Type) where
  /-- Component `[0]`. -/
  x : K
  /-- Component `[1]`. -/
  y : K
deriving DecidableEq

/-- Three-component vector `Vector3<float>`, components `[0]`, `[1]`, `[2]`. -/
@[ext]
structure Vector3 (K : Type) where
  /-- Component `[0]`. -/
  x : K
  /-- Component `[1]`. -/
  y : K
  /-- Component `[2]`. -/
  z : K
deriving DecidableEq

section VectorOps

variable {K : Type} [LinearOrderedField K]

/-- Modelled from the spec: `operator+(Vector3, Vector3)` of the vector
library (not in the sources at hand), the componentwise sum. -/
def Vector3.add (a b : Vector3 K) : Vector3 K :=
  ⟨a.x + b.x, a.y + b.y, a.z + b.z⟩

/-- Modelled from the spec: `operator-(Vector3, Vector3)` of the vector
library (not in the sources at hand), the componentwise difference. -/
def Vector3.sub (a b : Vector3 K) : Vector3 K :=
  ⟨a.x - b.x, a.y - b.y, a.z - b.z⟩

/-- Modelled from the spec: `operator*(Real, Vector3)` of the vector library
(not in the sources at hand), the product of a scalar and a vector. -/
def Vector3.smul (s : K) (a : Vector3 K) : Vector3 K :=
  ⟨s * a.x, s * a.y, s * a.z⟩

/-- Modelled from the spec: `operator/(Vector3, Real)` of the vector library
(not in the sources at hand), the quotient of a vector by a scalar. -/
def Vector3.divScalar (a : Vector3 K) (s : K) : Vector3 K :=
  ⟨a.x / s, a.y / s, a.z / s⟩

instance : Add (Vector3 K) := ⟨Vector3.add⟩

instance : Sub (Vector3 K) := ⟨Vector3.sub⟩

instance : HMul K (Vector3 K) (Vector3 K) := ⟨Vector3.smul⟩

instance : HDiv (Vector3 K) K (Vector3 K) := ⟨Vector3.divScalar⟩

/-- Modelled from the spec: `Dot` of the vector library (not in the sources at
hand), the Euclidean inner product. -/
def Dot (a b : Vector3 K) : K :=
  a.x * b.x + a.y * b.y + a.z * b.z

/-- Modelled from the spec: `Length` of the vector library (not in the sources
at hand), the square root of `Dot(v, v)`.  The square root itself is the
parameter `sqrt`. -/
def Length (sqrt : K → K) (v : Vector3 K) : K :=
  sqrt (Dot v v)

/-- Local constant `float const epsilon = 1e-08f` of `ComputeTangent`. -/
def epsilon : K := 1 / 100000000

/-- Embedding of `SimpleBumpMapEffect::ComputeTangent`.  The C++ function
returns a `bool` and writes the tangent through its last reference parameter
only on the paths that return `true`; here `none` stands for `return false`
and `some t` for `tangent = t; return true`. -/
def ComputeTangent (sqrt : K → K)
    (position0 : Vector3 K) (tcoord0 : Vector2 K)
    (position1 : Vector3 K) (tcoord1 : Vector2 K)
    (position2 : Vector3 K) (tcoord2 : Vector2 K) : Option (Vector3 K) :=
  -- Compute the change in positions at the vertex P0.
  let deltaPos1 := position1 - position0
  let deltaPos2 := position2 - position0
  if Length sqrt deltaPos1 ≤ epsilon ∨ Length sqrt deltaPos1 ≤ epsilon then
    -- The triangle is degenerate.
    none
  else
    let du1 := tcoord1.x - tcoord0.x
    let dv1 := tcoord1.y - tcoord0.y
    if |dv1| ≤ epsilon then
      if |du1| ≤ epsilon then
        none
      else
        some (deltaPos1 / du1)
    else
      let du2 := tcoord2.x - tcoord0.x
      let dv2 := tcoord2.y - tcoord0.y
      let det := dv1 * du2 - dv2 * du1
      if |det| ≤ epsilon then
        none
      else
        some ((dv1 * deltaPos2 - dv2 * deltaPos1) / det)

end VectorOps

/-- Four-component vector `Vector4<float>`, components `[0]` to `[3]`; the last
one is the homogeneous component. -/
@[ext]
structure Vector4 (K : Type) where
  /-- Component `[0]`. -/
  x : K
  /-- Component `[1]`. -/
  y : K
  /-- Component `[2]`. -/
  z : K
  /-- Component `[3]`. -/
  w : K
deriving DecidableEq

/-- Matrix `Matrix4x4<float>`, stored by rows. -/
@[ext]
structure Matrix4x4 (K : Type) where
  /-- Row 0. -/
  r0 : Vector4 K
  /-- Row 1. -/
  r1 : Vector4 K
  /-- Row 2. -/
  r2 : Vector4 K
  /-- Row 3. -/
  r3 : Vector4 K
deriving DecidableEq

/-- Local `struct Vertex` of `ComputeLightVectors` (source lines 68-75). -/
@[ext]
structure Vertex (K : Type) where
  /-- Member `position`. -/
  position : Vector3 K
  /-- Member `normal`. -/
  normal : Vector3 K
  /-- Member `lightDirection`. -/
  lightDirection : Vector3 K
  /-- Member `baseTCoord`. -/
  baseTCoord : Vector2 K
  /-- Member `normalTCoord`. -/
  normalTCoord : Vector2 K
deriving DecidableEq

/-- Modelled from the spec: the part of the `Visual` mesh object (class not in
the sources at hand) that `ComputeLightVectors` touches.
`worldTransformHInverse` is the matrix that `worldTransform.GetHInverse()`
returns, `vertexBuffer` the typed vertex array and `indexBuffer` the flattened
triangle index list, three indices per triangle. -/
@[ext]
structure Visual (K : Type) where
  /-- Result of `mesh->worldTransform.GetHInverse()`. -/
  worldTransformHInverse : Matrix4x4 K
  /-- Contents of `mesh->GetVertexBuffer()`. -/
  vertexBuffer : List (Vertex K)
  /-- Contents of `mesh->GetIndexBuffer()`. -/
  indexBuffer : List Nat

section LightVectors

variable {K : Type} [LinearOrderedField K]

/-- Local constant `Vector3<float> const zero{ 0.0f, 0.0f, 0.0f }` of
`ComputeLightVectors`, the flag for a light vector not yet computed. -/
def zero : Vector3 K := ⟨0, 0, 0⟩

/-- Modelled from the spec: `Cross` of the vector library (not in the sources
at hand), the right-handed cross product. -/
def Cross (a b : Vector3 K) : Vector3 K :=
  ⟨a.y * b.z - a.z * b.y, a.z * b.x - a.x * b.z, a.x * b.y - a.y * b.x⟩

/-- Modelled from the spec: `Normalize` of the vector library (not in the
sources at hand).  A vector of positive length is divided by its length, any
other vector becomes the zero vector; the result is a unit or zero vector. -/
def Normalize (sqrt : K → K) (v : Vector3 K) : Vector3 K :=
  let length := Length sqrt v
  if 0 < length then v / length else ⟨0, 0, 0⟩

/-- Modelled from the spec: `UnitCross` of the vector library (not in the
sources at hand), the normalized cross product. -/
def UnitCross (sqrt : K → K) (a b : Vector3 K) : Vector3 K :=
  Normalize sqrt (Cross a b)

/-- Modelled from the spec: unary `operator-` on `Vector4` of the vector
library (not in the sources at hand). -/
def Vector4.neg (v : Vector4 K) : Vector4 K :=
  ⟨-v.x, -v.y, -v.z, -v.w⟩

instance : Neg (Vector4 K) := ⟨Vector4.neg⟩

/-- Modelled from the spec: `DoTransform` of the matrix library (not in the
sources at hand), the product of the matrix and the column vector. -/
def DoTransform (M : Matrix4x4 K) (V : Vector4 K) : Vector4 K :=
  ⟨M.r0.x * V.x + M.r0.y * V.y + M.r0.z * V.z + M.r0.w * V.w,
   M.r1.x * V.x + M.r1.y * V.y + M.r1.z * V.z + M.r1.w * V.w,
   M.r2.x * V.x + M.r2.y * V.y + M.r2.z * V.z + M.r2.w * V.w,
   M.r3.x * V.x + M.r3.y * V.y + M.r3.z * V.z + M.r3.w * V.w⟩

/-- Modelled from the spec: `HProject` of the vector library (not in the
sources at hand), which drops the homogeneous component. -/
def HProject (v : Vector4 K) : Vector3 K :=
  ⟨v.x, v.y, v.z⟩

/-- Element `vertices[i]` of the vertex array.  The C++ code indexes a raw
pointer, so an index outside the buffer is undefined there; here it reads the
all-zero vertex. -/
def vertexAt (vertices : List (Vertex K)) (i : Nat) : Vertex K :=
  vertices.getD i ⟨⟨0, 0, 0⟩, ⟨0, 0, 0⟩, ⟨0, 0, 0⟩, ⟨0, 0⟩, ⟨0, 0⟩⟩

/-- Assignment `vertices[i].lightDirection = value`; an index outside the
buffer (undefined in C++) leaves the array as it is. -/
def setLightDirection (vertices : List (Vertex K)) (i : Nat) (value : Vector3 K) :
    List (Vertex K) :=
  vertices.set i { vertexAt vertices i with lightDirection := value }

/-- Source lines 82-84 of `ComputeLightVectors`: the world light direction is
transformed by the inverse world matrix, negated and projected to three
components.  No further operation is applied to it before it is used. -/
def ComputeLightVectors.modelLightDirection (invWMatrix : Matrix4x4 K)
    (worldLightDirection : Vector4 K) : Vector3 K :=
  let tempDirection := -DoTransform invWMatrix worldLightDirection
  HProject tempDirection

/-- Source lines 141-147 of `ComputeLightVectors`: the pair (tangent,
bitangent) built from the normal and the tangent that `ComputeTangent` has
returned, by `tangent -= Dot(normal, tangent) * normal; Normalize(tangent);`
and `bitangent = UnitCross(normal, tangent)`. -/
def ComputeLightVectors.tangentFrame (sqrt : K → K) (normal tangent : Vector3 K) :
    Vector3 K × Vector3 K :=
  let tangent := Normalize sqrt (tangent - Dot normal tangent * normal)
  let bitangent := UnitCross sqrt normal tangent
  (tangent, bitangent)

/-- Source lines 141-164 of `ComputeLightVectors`: the value stored when
`ComputeTangent` has returned `tangent`. -/
def ComputeLightVectors.frameCoordinates (sqrt : K → K) (modelLightDirection : Vector3 K)
    (normal tangent : Vector3 K) : Vector3 K :=
  let frame := ComputeLightVectors.tangentFrame sqrt normal tangent
  let tangent := frame.1
  let bitangent := frame.2
  let dotUT := Dot modelLightDirection tangent
  let dotUB := Dot modelLightDirection bitangent
  let dotUN := Dot modelLightDirection normal
  ⟨1 / 2 * (dotUT + 1), 1 / 2 * (dotUB + 1), 1 / 2 * (dotUN + 1)⟩

/-- Source lines 123-164 of `ComputeLightVectors`: the value assigned to
`vertices[v0].lightDirection` at the corner `v0` with successor `v1` and
predecessor `v2`, either the normal (when `ComputeTangent` fails) or the
coordinates in the tangent frame. -/
def ComputeLightVectors.lightVector (sqrt : K → K) (modelLightDirection : Vector3 K)
    (vertices : List (Vertex K)) (v0 v1 v2 : Nat) : Vector3 K :=
  let pos0 := (vertexAt vertices v0).position
  let tcd0 := (vertexAt vertices v0).baseTCoord
  let pos1 := (vertexAt vertices v1).position
  let tcd1 := (vertexAt vertices v1).baseTCoord
  let pos2 := (vertexAt vertices v2).position
  let tcd2 := (vertexAt vertices v2).baseTCoord
  let normal := (vertexAt vertices v0).normal
  match ComputeTangent sqrt pos0 tcd0 pos1 tcd1 pos2 tcd2 with
  | none => normal
  | some tangent =>
    ComputeLightVectors.frameCoordinates sqrt modelLightDirection normal tangent

/-- Body of the inner loop of `ComputeLightVectors` (source lines 113-164) for
one corner: nothing happens when `vertices[v0].lightDirection != zero`,
otherwise the light vector of the corner is stored. -/
def ComputeLightVectors.corner (sqrt : K → K) (modelLightDirection : Vector3 K)
    (vertices : List (Vertex K)) (v0 v1 v2 : Nat) : List (Vertex K) :=
  if (vertexAt vertices v0).lightDirection ≠ zero then
    vertices
  else
    setLightDirection vertices v0
      (ComputeLightVectors.lightVector sqrt modelLightDirection vertices v0 v1 v2)

/-- Inner loop `for (int i = 0; i < 3; ++i)` for the triangle `v[0] = a`,
`v[1] = b`, `v[2] = c`: for `i = 0, 1, 2` the corner is `v[i]`, its successor
`v[(i + 1) % 3]` and its predecessor `v[(i == 0) ? 2 : i - 1]`. -/
def ComputeLightVectors.triangle (sqrt : K → K) (modelLightDirection : Vector3 K)
    (vertices : List (Vertex K)) (a b c : Nat) : List (Vertex K) :=
  let vertices := ComputeLightVectors.corner sqrt modelLightDirection vertices a b c
  let vertices := ComputeLightVectors.corner sqrt modelLightDirection vertices b c a
  ComputeLightVectors.corner sqrt modelLightDirection vertices c a b

/-- Outer loop over the triangles (source lines 103-166): three indices are
read per triangle, `numTriangles` being the number of complete triples in the
index list. -/
def ComputeLightVectors.triangles (sqrt : K → K) (modelLightDirection : Vector3 K) :
    List Nat → List (Vertex K) → List (Vertex K)
  | a :: b :: c :: rest, vertices =>
    ComputeLightVectors.triangles sqrt modelLightDirection rest
      (ComputeLightVectors.triangle sqrt modelLightDirection vertices a b c)
  | _, vertices => vertices

/-- Source lines 86-97 of `ComputeLightVectors`: the first loop sets every
`vertices[i].lightDirection` to `zero`. -/
def ComputeLightVectors.reset (vertices : List (Vertex K)) : List (Vertex K) :=
  vertices.map (fun v => { v with lightDirection := zero })

/-- Embedding of `SimpleBumpMapEffect::ComputeLightVectors`: the mesh after
the call. -/
def ComputeLightVectors (sqrt : K → K) (mesh : Visual K) (worldLightDirection : Vector4 K) :
    Visual K :=
  let modelLightDirection :=
    ComputeLightVectors.modelLightDirection mesh.worldTransformHInverse worldLightDirection
  let vertices := ComputeLightVectors.reset mesh.vertexBuffer
  { mesh with
    vertexBuffer :=
      ComputeLightVectors.triangles sqrt modelLightDirection mesh.indexBuffer vertices }

/-- The corners `(v0, v1, v2)` in the order in which the two loops of
`ComputeLightVectors` visit them. -/
def cornerOrder : List Nat → List (Nat × Nat × Nat)
  | a :: b :: c :: rest => (a, b, c) :: (b, c, a) :: (c, a, b) :: cornerOrder rest
  | _ => []

/-- Diagonal matrix with the given diagonal entries; `diagonal 1 1 1 1` is the
identity and `diagonal (1/s) (1/s) (1/s) 1` the inverse of a uniform scale by
`s`. -/
def Matrix4x4.diagonal (a b c d : K) : Matrix4x4 K :=
  ⟨⟨a, 0, 0, 0⟩, ⟨0, b, 0, 0⟩, ⟨0, 0, c, 0⟩, ⟨0, 0, 0, d⟩⟩

/-- Test mesh of the concrete scenarios: three vertices at (0,0,0), (1,0,0),
(0,1,0) sharing one normal, with the given texture coordinates in `baseTCoord`,
stale light vectors (1,1,1), and the given inverse world matrix and index
list. -/
def unitTriangleMesh (invWMatrix : Matrix4x4 K) (normal : Vector3 K)
    (t0 t1 t2 : Vector2 K) (indices : List Nat) : Visual K :=
  { worldTransformHInverse := invWMatrix
    vertexBuffer :=
      [⟨⟨0, 0, 0⟩, normal, ⟨1, 1, 1⟩, t0, ⟨0, 0⟩⟩,
       ⟨⟨1, 0, 0⟩, normal, ⟨1, 1, 1⟩, t1, ⟨0, 0⟩⟩,
       ⟨⟨0, 1, 0⟩, normal, ⟨1, 1, 1⟩, t2, ⟨0, 0⟩⟩]
    indexBuffer := indices }

/-- Scenario of the specification: the unit triangle with normals (0,0,1),
texture coordinates (0,0), (1,0), (0,1), indices 0, 1, 2 and identity world
transform. -/
def unitTriangleScenario (K : Type) [LinearOrderedField K] : Visual K :=
  unitTriangleMesh (Matrix4x4.diagonal 1 1 1 1) ⟨0, 0, 1⟩ ⟨0, 0⟩ ⟨1, 0⟩ ⟨0, 1⟩ [0, 1, 2]

/-- The unit triangle scenario under a world transform that scales by 2, whose
inverse matrix is `diagonal (1/2) (1/2) (1/2) 1`. -/
def scaledScenario (K : Type) [LinearOrderedField K] : Visual K :=
  unitTriangleMesh (Matrix4x4.diagonal (1 / 2) (1 / 2) (1 / 2) 1) ⟨0, 0, 1⟩
    ⟨0, 0⟩ ⟨1, 0⟩ ⟨0, 1⟩ [0, 1, 2]

/-- The unit triangle with normals (0,0,-1) and the three texture coordinates
all equal to (0,0), identity world transform. -/
def downwardNormalScenario (K : Type) [LinearOrderedField K] : Visual K :=
  unitTriangleMesh (Matrix4x4.diagonal 1 1 1 1) ⟨0, 0, -1⟩ ⟨0, 0⟩ ⟨0, 0⟩ ⟨0, 0⟩ [0, 1, 2]

/-- The unit triangle with normals (0,0,1) and the three texture coordinates
all equal to (1/2,1/2), identity world transform. -/
def equalTCoordScenario (K : Type) [LinearOrderedField K] : Visual K :=
  unitTriangleMesh (Matrix4x4.diagonal 1 1 1 1) ⟨0, 0, 1⟩ ⟨1 / 2, 1 / 2⟩ ⟨1 / 2, 1 / 2⟩
    ⟨1 / 2, 1 / 2⟩ [0, 1, 2]

/-- The unit triangle with normals (0,0,1), texture coordinates (0,0), (1,0),
(1,0), listed twice with opposite winding (indices 0,1,2,0,2,1), under a
sheared transform with inverse matrix rows (1,0,0,0), (1,1,0,0), (1,0,1,0),
(0,0,0,1). -/
def shearedScenario (K : Type) [LinearOrderedField K] : Visual K :=
  unitTriangleMesh ⟨⟨1, 0, 0, 0⟩, ⟨1, 1, 0, 0⟩, ⟨1, 0, 1, 0⟩, ⟨0, 0, 0, 1⟩⟩ ⟨0, 0, 1⟩
    ⟨0, 0⟩ ⟨1, 0⟩ ⟨1, 0⟩ [0, 1, 2, 0, 2, 1]

/-- World light direction (0,0,-1,0). -/
def lightAlongMinusZ (K : Type) [LinearOrderedField K] : Vector4 K := ⟨0, 0, -1, 0⟩

/-- World light direction (1,0,0,0). -/
def lightAlongX (K : Type) [LinearOrderedField K] : Vector4 K := ⟨1, 0, 0, 0⟩

end LightVectors

/-! ## Edge keys -/

/-- C1: the undirected key built from `(a, b)` and the one built from `(b, a)`
store the same pair, for all integers `a` and `b` (the case `a = b`
included). -/
theorem EdgeKey.undirected_comm (a b : Int) :
    EdgeKey.EdgeKey false a b = EdgeKey.EdgeKey false b a := by
  unfold EdgeKey.EdgeKey
  rcases lt_trichotomy a b with h | h | h
  · simp [h, not_lt.mpr h.le]
  · subst h; rfl
  · simp [h, not_lt.mpr h.le]

/-- C2: for all integers `v0` and `v1` the undirected constructor stores
`V[0] = min(v0, v1)` and `V[1] = max(v0, v1)`, and so `V[0] <= V[1]` in every
constructed undirected key. -/
theorem EdgeKey.undirected_stores_min_max (v0 v1 : Int) :
    (EdgeKey.EdgeKey false v0 v1).V0 = min v0 v1 ∧
    (EdgeKey.EdgeKey false v0 v1).V1 = max v0 v1 ∧
    (EdgeKey.EdgeKey false v0 v1).V0 ≤ (EdgeKey.EdgeKey false v0 v1).V1 := by
  unfold EdgeKey.EdgeKey
  by_cases h : v0 < v1
  · simp only [h, if_true]
    exact ⟨(min_eq_left h.le).symm, (max_eq_right h.le).symm, h.le⟩
  · have h1 : v1 ≤ v0 := not_lt.mp h
    simp only [h, if_false]
    exact ⟨(min_eq_right h1).symm, (max_eq_left h1).symm, h1⟩

/-- C3: undirected keys are equal only for the same unordered endpoint pair.
If the keys of `(a, b)` and `(c, d)` store the same pair then `a = c ∧ b = d`
or `a = d ∧ b = c`; in particular, when `b ≠ c` the keys of `(a, b)` and
`(a, c)` differ. -/
theorem EdgeKey.undirected_eq_only_same_endpoints (a b c d : Int) :
    (EdgeKey.EdgeKey false a b = EdgeKey.EdgeKey false c d →
      (a = c ∧ b = d) ∨ (a = d ∧ b = c)) ∧
    (b ≠ c → EdgeKey.EdgeKey false a b ≠ EdgeKey.EdgeKey false a c) := by
  have key : ∀ p q r s : Int, EdgeKey.EdgeKey false p q = EdgeKey.EdgeKey false r s →
      (p = r ∧ q = s) ∨ (p = s ∧ q = r) := by
    intro p q r s h
    simp only [EdgeKey.EdgeKey] at h
    split_ifs at h <;> simp only [EdgeKey.mk.injEq] at h <;> omega
  refine ⟨key a b c d, fun hbc h => ?_⟩
  rcases key a b a c h with ⟨_, h2⟩ | ⟨h1, h2⟩
  · exact hbc h2
  · exact hbc (h2.trans h1)

/-- Instance of C3 at the keys of `(1, 2)`, `(2, 1)` and `(1, 3)`. -/
theorem EdgeKey.undirected_eq_only_same_endpoints_witness :
    (EdgeKey.EdgeKey false 1 2 = EdgeKey.EdgeKey false 2 1 ∧
      (((1 : Int) = 2 ∧ (2 : Int) = 1) ∨ ((1 : Int) = 1 ∧ (2 : Int) = 2))) ∧
    ((2 : Int) ≠ 3 ∧ EdgeKey.EdgeKey false 1 2 ≠ EdgeKey.EdgeKey false 1 3) :=
  ⟨⟨by decide, (EdgeKey.undirected_eq_only_same_endpoints 1 2 2 1).1 (by decide)⟩,
   ⟨by decide, (EdgeKey.undirected_eq_only_same_endpoints 1 2 3 0).2 (by decide)⟩⟩

/-- C4: for all integers (also when `v0 > v1`) the directed constructor stores
`V[0] = v0` and `V[1] = v1` as given; two directed keys store the same pair
exactly when their arguments agree position by position; and the directed key
of `(a, b)` equals that of `(b, a)` only when `a = b`. -/
theorem EdgeKey.directed_stores_verbatim (a b c d : Int) :
    ((EdgeKey.EdgeKey true a b).V0 = a ∧ (EdgeKey.EdgeKey true a b).V1 = b) ∧
    (EdgeKey.EdgeKey true a b = EdgeKey.EdgeKey true c d ↔ a = c ∧ b = d) ∧
    (EdgeKey.EdgeKey true a b = EdgeKey.EdgeKey true b a → a = b) := by
  refine ⟨⟨rfl, rfl⟩, ?_, ?_⟩
  · simp [EdgeKey.EdgeKey]
  · intro h
    simp only [EdgeKey.EdgeKey, EdgeKey.mk.injEq] at h
    exact h.1

/-- Instance of C4 at `(5, 3)`: the larger index stays first, and swapping
equal arguments `(4, 4)` is the only way to get the same directed key. -/
theorem EdgeKey.directed_stores_verbatim_witness :
    ((EdgeKey.EdgeKey true 5 3).V0 = 5 ∧ (EdgeKey.EdgeKey true 5 3).V1 = 3) ∧
    (EdgeKey.EdgeKey true 4 4 = EdgeKey.EdgeKey true 4 4 ∧ (4 : Int) = 4) :=
  ⟨(EdgeKey.directed_stores_verbatim 5 3 0 0).1,
   ⟨rfl, (EdgeKey.directed_stores_verbatim 4 4 0 0).2.2 rfl⟩⟩

/-! ## Tangent solver -/

section TangentSolver

variable {K : Type} [LinearOrderedField K]

theorem Vector3.add_def (a b : Vector3 K) :
    a + b = ⟨a.x + b.x, a.y + b.y, a.z + b.z⟩ := rfl

theorem Vector3.sub_def (a b : Vector3 K) :
    a - b = ⟨a.x - b.x, a.y - b.y, a.z - b.z⟩ := rfl

theorem Vector3.smul_def (s : K) (a : Vector3 K) :
    s * a = (⟨s * a.x, s * a.y, s * a.z⟩ : Vector3 K) := rfl

theorem Vector3.div_def (a : Vector3 K) (s : K) :
    a / s = (⟨a.x / s, a.y / s, a.z / s⟩ : Vector3 K) := rfl

theorem epsilon_pos : (0 : K) < epsilon := by
  unfold epsilon; positivity

/-- On the path that reaches the determinant, and on the u-only path when
`dv1` is exactly zero, the value returned is `(dv1*dP2 - dv2*dP1)/det`. -/
theorem ComputeTangent_eq_formula (sqrt : K → K) (p0 p1 p2 : Vector3 K)
    (t0 t1 t2 : Vector2 K) (T : Vector3 K)
    (hT : ComputeTangent sqrt p0 t0 p1 t1 p2 t2 = some T)
    (hdet : (t1.y - t0.y) * (t2.x - t0.x) - (t2.y - t0.y) * (t1.x - t0.x) ≠ 0)
    (hdv : t1.y - t0.y = 0 ∨ epsilon < |t1.y - t0.y|) :
    T = ((t1.y - t0.y) * (p2 - p0) - (t2.y - t0.y) * (p1 - p0)) /
          ((t1.y - t0.y) * (t2.x - t0.x) - (t2.y - t0.y) * (t1.x - t0.x)) := by
  unfold ComputeTangent at hT
  simp only [or_self] at hT
  split_ifs at hT with h1 h2 h3 h4
  · rcases hdv with h0 | h0
    · have hT2 := (Option.some.inj hT).symm
      rw [h0] at hdet ⊢
      have hdu : t1.x - t0.x ≠ 0 := by
        intro h; apply hdet; rw [h]; ring
      have hdv2 : t2.y - t0.y ≠ 0 := by
        intro h; apply hdet; rw [h]; ring
      rw [hT2]
      simp only [Vector3.div_def, Vector3.sub_def, Vector3.smul_def, Vector3.mk.injEq]
      refine ⟨?_, ?_, ?_⟩ <;> field_simp <;> ring
    · exact absurd h2 (not_le.mpr h0)
  · exact (Option.some.inj hT).symm

/-- Scalar core of the existence half: with `T = (dv1*b - dv2*a)/det` and
`B = (du2*a - du1*b)/det` both equations of the 2x2 system hold. -/
theorem tangent_system_solution (du1 dv1 du2 dv2 a b : K)
    (hdet : dv1 * du2 - dv2 * du1 ≠ 0) :
    a = du1 * ((dv1 * b - dv2 * a) / (dv1 * du2 - dv2 * du1)) +
          dv1 * ((du2 * a - du1 * b) / (dv1 * du2 - dv2 * du1)) ∧
    b = du2 * ((dv1 * b - dv2 * a) / (dv1 * du2 - dv2 * du1)) +
          dv2 * ((du2 * a - du1 * b) / (dv1 * du2 - dv2 * du1)) := by
  constructor <;> field_simp <;> ring

/-- Scalar core of the uniqueness half: any `T` that solves the 2x2 system with
some `B` is `(dv1*b - dv2*a)/det`. -/
theorem tangent_system_unique (du1 dv1 du2 dv2 a b T B : K)
    (hdet : dv1 * du2 - dv2 * du1 ≠ 0)
    (ha : a = du1 * T + dv1 * B) (hb : b = du2 * T + dv2 * B) :
    T = (dv1 * b - dv2 * a) / (dv1 * du2 - dv2 * du1) := by
  rw [eq_div_iff hdet, ha, hb]; ring

/-- C5: `ComputeTangent` succeeds exactly on the documented inputs.  With
`dP1 = p1 - p0`, `(du1, dv1) = t1 - t0`, `(du2, dv2) = t2 - t0` and
`det = dv1*du2 - dv2*du1`, it returns `true` if and only if `|dP1| > eps` and
either (`|dv1| <= eps` and `|du1| > eps`) or (`|dv1| > eps` and
`|det| > eps`); on every other input it returns `false`. -/
theorem ComputeTangent_succeeds_iff (sqrt : K → K) (p0 p1 p2 : Vector3 K)
    (t0 t1 t2 : Vector2 K) :
    ((ComputeTangent sqrt p0 t0 p1 t1 p2 t2).isSome = true ↔
      epsilon < Length sqrt (p1 - p0) ∧
      ((|t1.y - t0.y| ≤ epsilon ∧ epsilon < |t1.x - t0.x|) ∨
       (epsilon < |t1.y - t0.y| ∧
        epsilon < |(t1.y - t0.y) * (t2.x - t0.x) - (t2.y - t0.y) * (t1.x - t0.x)|))) ∧
    (ComputeTangent sqrt p0 t0 p1 t1 p2 t2 = none ↔
      ¬ (epsilon < Length sqrt (p1 - p0) ∧
      ((|t1.y - t0.y| ≤ epsilon ∧ epsilon < |t1.x - t0.x|) ∨
       (epsilon < |t1.y - t0.y| ∧
        epsilon < |(t1.y - t0.y) * (t2.x - t0.x) - (t2.y - t0.y) * (t1.x - t0.x)|)))) := by
  unfold ComputeTangent
  simp only [or_self]
  split_ifs with h1 h2 h3 h4 <;> simp_all [not_le]

/-- C6: whenever `|p1 - p0| > eps`, `|dv1| <= eps` and `|du1| > eps`,
`ComputeTangent` returns `true` with tangent `(p1 - p0)/du1`, whatever `p2`
and `t2` are; and for the unit triangle with positions (0,0,0), (1,0,0),
(0,1,0) and texture coordinates (0,0), (1,0), (0,1), read in real arithmetic,
the returned tangent is (1,0,0). -/
theorem ComputeTangent_u_only :
    (∀ (K : Type) [LinearOrderedField K] (sqrt : K → K) (p0 p1 p2 : Vector3 K)
        (t0 t1 t2 : Vector2 K),
        epsilon < Length sqrt (p1 - p0) → |t1.y - t0.y| ≤ epsilon →
        epsilon < |t1.x - t0.x| →
        ComputeTangent sqrt p0 t0 p1 t1 p2 t2 = some ((p1 - p0) / (t1.x - t0.x))) ∧
    ComputeTangent Real.sqrt (⟨0, 0, 0⟩ : Vector3 ℝ) ⟨0, 0⟩ ⟨1, 0, 0⟩ ⟨1, 0⟩ ⟨0, 1, 0⟩ ⟨0, 1⟩
      = some ⟨1, 0, 0⟩ := by
  constructor
  · intro K _ sqrt p0 p1 p2 t0 t1 t2 h1 h2 h3
    unfold ComputeTangent
    simp only [or_self]
    rw [if_neg (not_le.mpr h1), if_pos h2, if_neg (not_le.mpr h3)]
  · norm_num [ComputeTangent, Length, Dot, epsilon, Vector3.sub_def, Vector3.div_def]

/-- Instance of C6 over the reals: edge (0,2,0), `du1 = 1/2`, `dv1 = 0`, and
an unrelated third corner. -/
theorem ComputeTangent_u_only_witness :
    (epsilon : ℝ) < Length Real.sqrt ((⟨0, 2, 0⟩ : Vector3 ℝ) - ⟨0, 0, 0⟩) ∧
    |(3 : ℝ) - 3| ≤ epsilon ∧ (epsilon : ℝ) < |(1 / 2 : ℝ) - 0| ∧
    ComputeTangent Real.sqrt (⟨0, 0, 0⟩ : Vector3 ℝ) ⟨0, 3⟩ ⟨0, 2, 0⟩ ⟨1 / 2, 3⟩
      ⟨5, 5, 5⟩ ⟨7, 8⟩ = some (((⟨0, 2, 0⟩ : Vector3 ℝ) - ⟨0, 0, 0⟩) / ((1 / 2 : ℝ) - 0)) :=
  have h1 : (epsilon : ℝ) < Length Real.sqrt ((⟨0, 2, 0⟩ : Vector3 ℝ) - ⟨0, 0, 0⟩) := by
    have h : Real.sqrt 4 = 2 := by
      rw [show (4 : ℝ) = 2 ^ 2 by norm_num]; exact Real.sqrt_sq (by norm_num)
    norm_num [Length, Dot, epsilon, Vector3.sub_def, h]
  have h2 : |(3 : ℝ) - 3| ≤ epsilon := by norm_num [epsilon]
  have h3 : (epsilon : ℝ) < |(1 / 2 : ℝ) - 0| := by norm_num [epsilon, abs_of_pos]
  ⟨h1, h2, h3, ComputeTangent_u_only.1 ℝ Real.sqrt ⟨0, 0, 0⟩ ⟨0, 2, 0⟩ ⟨5, 5, 5⟩
    ⟨0, 3⟩ ⟨1 / 2, 3⟩ ⟨7, 8⟩ h1 h2 h3⟩

/-- C7: whenever `|p1 - p0| > eps`, `|dv1| > eps` and `|det| > eps` with
`det = dv1*du2 - dv2*du1`, `ComputeTangent` returns `true` with tangent
`(dv1*(p2 - p0) - dv2*(p1 - p0)) / det`. -/
theorem ComputeTangent_det_formula (sqrt : K → K) (p0 p1 p2 : Vector3 K)
    (t0 t1 t2 : Vector2 K)
    (h1 : epsilon < Length sqrt (p1 - p0))
    (h2 : epsilon < |t1.y - t0.y|)
    (h3 : epsilon < |(t1.y - t0.y) * (t2.x - t0.x) - (t2.y - t0.y) * (t1.x - t0.x)|) :
    ComputeTangent sqrt p0 t0 p1 t1 p2 t2 =
      some (((t1.y - t0.y) * (p2 - p0) - (t2.y - t0.y) * (p1 - p0)) /
        ((t1.y - t0.y) * (t2.x - t0.x) - (t2.y - t0.y) * (t1.x - t0.x))) := by
  unfold ComputeTangent
  simp only [or_self]
  rw [if_neg (not_le.mpr h1), if_neg (not_le.mpr h2), if_neg (not_le.mpr h3)]

/-- Instance of C7 over the reals: the unit triangle with texture coordinates
(0,0), (0,1), (1,0), where `dv1 = 1` and `det = 1`. -/
theorem ComputeTangent_det_formula_witness :
    (epsilon : ℝ) < Length Real.sqrt ((⟨1, 0, 0⟩ : Vector3 ℝ) - ⟨0, 0, 0⟩) ∧
    (epsilon : ℝ) < |(1 : ℝ) - 0| ∧
    (epsilon : ℝ) < |((1 : ℝ) - 0) * (1 - 0) - (0 - 0) * (0 - 0)| ∧
    ComputeTangent Real.sqrt (⟨0, 0, 0⟩ : Vector3 ℝ) ⟨0, 0⟩ ⟨1, 0, 0⟩ ⟨0, 1⟩
      ⟨0, 1, 0⟩ ⟨1, 0⟩ =
      some ((((1 : ℝ) - 0) * ((⟨0, 1, 0⟩ : Vector3 ℝ) - ⟨0, 0, 0⟩) -
              ((0 : ℝ) - 0) * ((⟨1, 0, 0⟩ : Vector3 ℝ) - ⟨0, 0, 0⟩)) /
        (((1 : ℝ) - 0) * (1 - 0) - (0 - 0) * (0 - 0))) :=
  have h1 : (epsilon : ℝ) < Length Real.sqrt ((⟨1, 0, 0⟩ : Vector3 ℝ) - ⟨0, 0, 0⟩) := by
    norm_num [Length, Dot, epsilon, Vector3.sub_def]
  have h2 : (epsilon : ℝ) < |(1 : ℝ) - 0| := by norm_num [epsilon]
  have h3 : (epsilon : ℝ) < |((1 : ℝ) - 0) * (1 - 0) - (0 - 0) * (0 - 0)| := by
    norm_num [epsilon]
  ⟨h1, h2, h3, ComputeTangent_det_formula Real.sqrt ⟨0, 0, 0⟩ ⟨1, 0, 0⟩ ⟨0, 1, 0⟩
    ⟨0, 0⟩ ⟨0, 1⟩ ⟨1, 0⟩ h1 h2 h3⟩

/-- C8, as stated, fails on the u-only path when `dv1` is small but not zero.
Over the reals, for positions (0,0,0), (1,0,0), (0,1,0) and texture
coordinates (0,0), (1, 2^-30), (0,1): `det = -1`, `ComputeTangent` returns
(1,0,0), and no `B` satisfies both `p1 - p0 = du1*T + dv1*B` and
`p2 - p0 = du2*T + dv2*B` for that `T`. -/
theorem ComputeTangent_exact_derivative_counterexample :
    ComputeTangent Real.sqrt (⟨0, 0, 0⟩ : Vector3 ℝ) ⟨0, 0⟩ ⟨1, 0, 0⟩ ⟨1, 1 / 2 ^ 30⟩
      ⟨0, 1, 0⟩ ⟨0, 1⟩ = some ⟨1, 0, 0⟩ ∧
    ((1 / 2 ^ 30 : ℝ) - 0) * (0 - 0) - (1 - 0) * (1 - 0) ≠ 0 ∧
    ¬ ∃ B : Vector3 ℝ,
      (⟨1, 0, 0⟩ : Vector3 ℝ) - ⟨0, 0, 0⟩ =
        ((1 : ℝ) - 0) * (⟨1, 0, 0⟩ : Vector3 ℝ) + ((1 / 2 ^ 30 : ℝ) - 0) * B ∧
      (⟨0, 1, 0⟩ : Vector3 ℝ) - ⟨0, 0, 0⟩ =
        ((0 : ℝ) - 0) * (⟨1, 0, 0⟩ : Vector3 ℝ) + ((1 : ℝ) - 0) * B := by
  refine ⟨?_, by norm_num, ?_⟩
  · norm_num [ComputeTangent, Length, Dot, epsilon, Vector3.sub_def, Vector3.div_def,
      abs_of_pos]
  · rintro ⟨B, h1, h2⟩
    simp only [Vector3.sub_def, Vector3.add_def, Vector3.smul_def, Vector3.mk.injEq] at h1 h2
    obtain ⟨-, h1y, -⟩ := h1
    obtain ⟨-, h2y, -⟩ := h2
    norm_num at h1y h2y
    rw [h1y] at h2y
    norm_num at h2y

/-- C8 (amended): if `ComputeTangent` succeeds with `det = dv1*du2 - dv2*du1`
not zero, and `dv1` is either exactly zero or larger than `eps` in absolute
value, then the returned tangent `T` is the derivative dP/du of the affine
parametrization: some `B` satisfies `p1 - p0 = du1*T + dv1*B` and
`p2 - p0 = du2*T + dv2*B`, and `T` is the only vector for which such a `B`
exists. -/
theorem ComputeTangent_exact_derivative (sqrt : K → K) (p0 p1 p2 : Vector3 K)
    (t0 t1 t2 : Vector2 K) (T : Vector3 K)
    (hT : ComputeTangent sqrt p0 t0 p1 t1 p2 t2 = some T)
    (hdet : (t1.y - t0.y) * (t2.x - t0.x) - (t2.y - t0.y) * (t1.x - t0.x) ≠ 0)
    (hdv : t1.y - t0.y = 0 ∨ epsilon < |t1.y - t0.y|) :
    (∃ B : Vector3 K,
        p1 - p0 = (t1.x - t0.x) * T + (t1.y - t0.y) * B ∧
        p2 - p0 = (t2.x - t0.x) * T + (t2.y - t0.y) * B) ∧
    ∀ T2 : Vector3 K,
      (∃ B2 : Vector3 K,
        p1 - p0 = (t1.x - t0.x) * T2 + (t1.y - t0.y) * B2 ∧
        p2 - p0 = (t2.x - t0.x) * T2 + (t2.y - t0.y) * B2) → T2 = T := by
  have hform := ComputeTangent_eq_formula sqrt p0 p1 p2 t0 t1 t2 T hT hdet hdv
  constructor
  · refine ⟨((t2.x - t0.x) * (p1 - p0) - (t1.x - t0.x) * (p2 - p0)) /
      ((t1.y - t0.y) * (t2.x - t0.x) - (t2.y - t0.y) * (t1.x - t0.x)), ?_, ?_⟩
    · rw [hform]
      simp only [Vector3.sub_def, Vector3.add_def, Vector3.smul_def, Vector3.div_def,
        Vector3.mk.injEq]
      exact ⟨(tangent_system_solution _ _ _ _ _ _ hdet).1,
        (tangent_system_solution _ _ _ _ _ _ hdet).1,
        (tangent_system_solution _ _ _ _ _ _ hdet).1⟩
    · rw [hform]
      simp only [Vector3.sub_def, Vector3.add_def, Vector3.smul_def, Vector3.div_def,
        Vector3.mk.injEq]
      exact ⟨(tangent_system_solution _ _ _ _ _ _ hdet).2,
        (tangent_system_solution _ _ _ _ _ _ hdet).2,
        (tangent_system_solution _ _ _ _ _ _ hdet).2⟩
  · rintro T2 ⟨B2, e1, e2⟩
    rw [hform]
    simp only [Vector3.sub_def, Vector3.add_def, Vector3.smul_def, Vector3.mk.injEq] at e1 e2
    obtain ⟨e1x, e1y, e1z⟩ := e1
    obtain ⟨e2x, e2y, e2z⟩ := e2
    apply Vector3.ext
    · simp only [Vector3.sub_def, Vector3.smul_def, Vector3.div_def]
      exact tangent_system_unique _ _ _ _ _ _ _ _ hdet e1x e2x
    · simp only [Vector3.sub_def, Vector3.smul_def, Vector3.div_def]
      exact tangent_system_unique _ _ _ _ _ _ _ _ hdet e1y e2y
    · simp only [Vector3.sub_def, Vector3.smul_def, Vector3.div_def]
      exact tangent_system_unique _ _ _ _ _ _ _ _ hdet e1z e2z

/-- Instance of C8 (amended) over the reals: the unit triangle with texture
coordinates (0,0), (0,1), (1,0); here `dv1 = 1`, `det = 1` and the returned
tangent is (0,1,0). -/
theorem ComputeTangent_exact_derivative_witness :
    ComputeTangent Real.sqrt (⟨0, 0, 0⟩ : Vector3 ℝ) ⟨0, 0⟩ ⟨1, 0, 0⟩ ⟨0, 1⟩
      ⟨0, 1, 0⟩ ⟨1, 0⟩ = some ⟨0, 1, 0⟩ ∧
    ((1 : ℝ) - 0) * (1 - 0) - (0 - 0) * (0 - 0) ≠ 0 ∧
    ((1 : ℝ) - 0 = 0 ∨ (epsilon : ℝ) < |(1 : ℝ) - 0|) ∧
    ((∃ B : Vector3 ℝ,
        (⟨1, 0, 0⟩ : Vector3 ℝ) - ⟨0, 0, 0⟩ =
          ((0 : ℝ) - 0) * (⟨0, 1, 0⟩ : Vector3 ℝ) + ((1 : ℝ) - 0) * B ∧
        (⟨0, 1, 0⟩ : Vector3 ℝ) - ⟨0, 0, 0⟩ =
          ((1 : ℝ) - 0) * (⟨0, 1, 0⟩ : Vector3 ℝ) + ((0 : ℝ) - 0) * B) ∧
     ∀ T2 : Vector3 ℝ,
      (∃ B2 : Vector3 ℝ,
        (⟨1, 0, 0⟩ : Vector3 ℝ) - ⟨0, 0, 0⟩ =
          ((0 : ℝ) - 0) * T2 + ((1 : ℝ) - 0) * B2 ∧
        (⟨0, 1, 0⟩ : Vector3 ℝ) - ⟨0, 0, 0⟩ =
          ((1 : ℝ) - 0) * T2 + ((0 : ℝ) - 0) * B2) → T2 = ⟨0, 1, 0⟩) :=
  have hT : ComputeTangent Real.sqrt (⟨0, 0, 0⟩ : Vector3 ℝ) ⟨0, 0⟩ ⟨1, 0, 0⟩ ⟨0, 1⟩
      ⟨0, 1, 0⟩ ⟨1, 0⟩ = some ⟨0, 1, 0⟩ := by
    norm_num [ComputeTangent, Length, Dot, epsilon, Vector3.sub_def, Vector3.div_def,
      Vector3.smul_def]
  have hdet : ((1 : ℝ) - 0) * (1 - 0) - (0 - 0) * (0 - 0) ≠ 0 := by norm_num
  have hdv : (1 : ℝ) - 0 = 0 ∨ (epsilon : ℝ) < |(1 : ℝ) - 0| :=
    Or.inr (by norm_num [epsilon])
  ⟨hT, hdet, hdv, ComputeTangent_exact_derivative Real.sqrt ⟨0, 0, 0⟩ ⟨1, 0, 0⟩ ⟨0, 1, 0⟩
    ⟨0, 0⟩ ⟨0, 1⟩ ⟨1, 0⟩ ⟨0, 1, 0⟩ hT hdet hdv⟩

/-- C9: when `position1` equals `position0` (zero-length edge P1-P0),
`ComputeTangent` returns `false` whatever the other four arguments are.  The
square root is only required to send 0 to 0. -/
theorem ComputeTangent_zero_edge_fails (sqrt : K → K) (hsqrt : sqrt 0 = 0)
    (p0 p1 p2 : Vector3 K) (t0 t1 t2 : Vector2 K) (h : p1 = p0) :
    ComputeTangent sqrt p0 t0 p1 t1 p2 t2 = none := by
  subst h
  have hlen : Length sqrt (p1 - p1) ≤ epsilon := by
    have h0 : Dot (p1 - p1) (p1 - p1) = 0 := by
      simp [Dot, Vector3.sub_def]
    unfold Length
    rw [h0, hsqrt]
    exact epsilon_pos.le
  unfold ComputeTangent
  simp only [or_self]
  rw [if_pos hlen]

/-- Instance of C9 over the reals with the real square root: both positions
are (1,2,3), the texture coordinates are those of a regular triangle. -/
theorem ComputeTangent_zero_edge_fails_witness :
    Real.sqrt 0 = 0 ∧ (⟨1, 2, 3⟩ : Vector3 ℝ) = ⟨1, 2, 3⟩ ∧
    ComputeTangent Real.sqrt (⟨1, 2, 3⟩ : Vector3 ℝ) ⟨0, 0⟩ ⟨1, 2, 3⟩ ⟨1, 0⟩
      ⟨0, 1, 0⟩ ⟨0, 1⟩ = none :=
  ⟨Real.sqrt_zero, rfl, ComputeTangent_zero_edge_fails Real.sqrt Real.sqrt_zero
    ⟨1, 2, 3⟩ ⟨1, 2, 3⟩ ⟨0, 1, 0⟩ ⟨0, 0⟩ ⟨1, 0⟩ ⟨0, 1⟩ rfl⟩

/-- C10: when the three texture coordinates are identical, `ComputeTangent`
returns `false` whatever the positions are. -/
theorem ComputeTangent_equal_tcoords_fails (sqrt : K → K)
    (p0 p1 p2 : Vector3 K) (t0 t1 t2 : Vector2 K) (h1 : t1 = t0) (h2 : t2 = t0) :
    ComputeTangent sqrt p0 t0 p1 t1 p2 t2 = none := by
  subst h1 h2
  have hz : |t2.y - t2.y| ≤ (epsilon : K) := by
    rw [sub_self, abs_zero]; exact epsilon_pos.le
  have hz2 : |t2.x - t2.x| ≤ (epsilon : K) := by
    rw [sub_self, abs_zero]; exact epsilon_pos.le
  unfold ComputeTangent
  simp only [or_self]
  split_ifs <;> rfl

/-- Instance of C10 over the reals: a regular unit triangle whose three
texture coordinates are all (1/4, 3/4). -/
theorem ComputeTangent_equal_tcoords_fails_witness :
    (⟨1 / 4, 3 / 4⟩ : Vector2 ℝ) = ⟨1 / 4, 3 / 4⟩ ∧
    (⟨1 / 4, 3 / 4⟩ : Vector2 ℝ) = ⟨1 / 4, 3 / 4⟩ ∧
    ComputeTangent Real.sqrt (⟨0, 0, 0⟩ : Vector3 ℝ) ⟨1 / 4, 3 / 4⟩ ⟨1, 0, 0⟩
      ⟨1 / 4, 3 / 4⟩ ⟨0, 1, 0⟩ ⟨1 / 4, 3 / 4⟩ = none :=
  ⟨rfl, rfl, ComputeTangent_equal_tcoords_fails Real.sqrt ⟨0, 0, 0⟩ ⟨1, 0, 0⟩ ⟨0, 1, 0⟩
    ⟨1 / 4, 3 / 4⟩ ⟨1 / 4, 3 / 4⟩ ⟨1 / 4, 3 / 4⟩ rfl rfl⟩

end TangentSolver

/-! ## Light vectors: the loops -/

section LightVectorLoops

variable {K : Type} [LinearOrderedField K]

theorem vertexAt_reset (vs : List (Vertex K)) (i : Nat) :
    vertexAt (ComputeLightVectors.reset vs) i =
      { vertexAt vs i with lightDirection := zero } := by
  unfold vertexAt ComputeLightVectors.reset
  simp only [List.getD_eq_getElem?_getD, List.getElem?_map]
  cases vs[i]? <;> simp [zero]

theorem reset_reset (vs : List (Vertex K)) :
    ComputeLightVectors.reset (ComputeLightVectors.reset vs) = ComputeLightVectors.reset vs := by
  simp [ComputeLightVectors.reset, Function.comp_def]

theorem length_reset (vs : List (Vertex K)) :
    (ComputeLightVectors.reset vs).length = vs.length := by
  simp [ComputeLightVectors.reset]

theorem length_setLightDirection (vs : List (Vertex K)) (i : Nat) (x : Vector3 K) :
    (setLightDirection vs i x).length = vs.length := by
  simp [setLightDirection]

theorem reset_setLightDirection (vs : List (Vertex K)) (i : Nat) (x : Vector3 K) :
    ComputeLightVectors.reset (setLightDirection vs i x) = ComputeLightVectors.reset vs := by
  apply List.ext_getElem?
  intro j
  unfold ComputeLightVectors.reset setLightDirection vertexAt
  simp only [List.getElem?_map, List.getElem?_set, List.getD_eq_getElem?_getD]
  by_cases hij : i = j
  · subst hij
    by_cases hi : i < vs.length
    · simp [hi, List.getElem?_eq_getElem hi]
    · simp [hi, List.getElem?_eq_none (not_lt.mp hi)]
  · simp [hij]

theorem vertexAt_setLightDirection (vs : List (Vertex K)) (i j : Nat) (x : Vector3 K) :
    vertexAt (setLightDirection vs i x) j =
      if j = i ∧ i < vs.length then { vertexAt vs i with lightDirection := x }
      else vertexAt vs j := by
  unfold setLightDirection vertexAt
  simp only [List.getD_eq_getElem?_getD, List.getElem?_set]
  by_cases hij : i = j
  · subst hij
    by_cases hi : i < vs.length
    · simp [hi]
    · simp [hi, List.getElem?_eq_none (not_lt.mp hi)]
  · have hji : ¬ j = i := fun h => hij h.symm
    simp [hij, hji]

theorem vertexAt_fields_of_reset_eq {vs vs0 : List (Vertex K)}
    (h : ComputeLightVectors.reset vs = ComputeLightVectors.reset vs0) (i : Nat) :
    (vertexAt vs i).position = (vertexAt vs0 i).position ∧
    (vertexAt vs i).normal = (vertexAt vs0 i).normal ∧
    (vertexAt vs i).baseTCoord = (vertexAt vs0 i).baseTCoord ∧
    (vertexAt vs i).normalTCoord = (vertexAt vs0 i).normalTCoord := by
  have h2 := congrArg (fun l => vertexAt l i) h
  simp only [vertexAt_reset, Vertex.mk.injEq] at h2
  exact ⟨h2.1, h2.2.1, h2.2.2.2.1, h2.2.2.2.2⟩

theorem lightVector_congr (sqrt : K → K) (U : Vector3 K) {vs vs0 : List (Vertex K)}
    (h : ComputeLightVectors.reset vs = ComputeLightVectors.reset vs0) (a b c : Nat) :
    ComputeLightVectors.lightVector sqrt U vs a b c =
      ComputeLightVectors.lightVector sqrt U vs0 a b c := by
  unfold ComputeLightVectors.lightVector
  have ha := vertexAt_fields_of_reset_eq h a
  have hb := vertexAt_fields_of_reset_eq h b
  have hc := vertexAt_fields_of_reset_eq h c
  simp only [ha.1, ha.2.1, ha.2.2.1, hb.1, hb.2.2.1, hc.1, hc.2.2.1]

theorem reset_corner (sqrt : K → K) (U : Vector3 K) (vs : List (Vertex K)) (a b c : Nat) :
    ComputeLightVectors.reset (ComputeLightVectors.corner sqrt U vs a b c) =
      ComputeLightVectors.reset vs := by
  unfold ComputeLightVectors.corner
  split_ifs
  · rfl
  · exact reset_setLightDirection _ _ _

theorem length_corner (sqrt : K → K) (U : Vector3 K) (vs : List (Vertex K)) (a b c : Nat) :
    (ComputeLightVectors.corner sqrt U vs a b c).length = vs.length := by
  unfold ComputeLightVectors.corner
  split_ifs
  · rfl
  · exact length_setLightDirection _ _ _

theorem light_corner (sqrt : K → K) (U : Vector3 K) (vs : List (Vertex K)) (a b c j : Nat) :
    (vertexAt (ComputeLightVectors.corner sqrt U vs a b c) j).lightDirection =
      if j = a ∧ a < vs.length ∧ (vertexAt vs a).lightDirection = zero then
        ComputeLightVectors.lightVector sqrt U vs a b c
      else (vertexAt vs j).lightDirection := by
  unfold ComputeLightVectors.corner
  by_cases h0 : (vertexAt vs a).lightDirection = zero
  · rw [if_neg (not_not.mpr h0), vertexAt_setLightDirection]
    by_cases hj : j = a ∧ a < vs.length
    · rw [if_pos hj, if_pos ⟨hj.1, hj.2, h0⟩]
    · rw [if_neg hj, if_neg (fun h => hj ⟨h.1, h.2.1⟩)]
  · rw [if_pos h0, if_neg (fun h => h0 h.2.2)]

theorem triangles_eq_foldl (sqrt : K → K) (U : Vector3 K) :
    ∀ (idx : List Nat) (vs : List (Vertex K)),
      ComputeLightVectors.triangles sqrt U idx vs =
        (cornerOrder idx).foldl
          (fun vs c => ComputeLightVectors.corner sqrt U vs c.1 c.2.1 c.2.2) vs
  | [], vs => by simp [ComputeLightVectors.triangles, cornerOrder]
  | [_], vs => by simp [ComputeLightVectors.triangles, cornerOrder]
  | [_, _], vs => by simp [ComputeLightVectors.triangles, cornerOrder]
  | a :: b :: c :: rest, vs => by
    simp only [ComputeLightVectors.triangles, cornerOrder, List.foldl_cons,
      ComputeLightVectors.triangle]
    exact triangles_eq_foldl sqrt U rest _

theorem reset_foldl_corner (sqrt : K → K) (U : Vector3 K) (cs : List (Nat × Nat × Nat)) :
    ∀ vs : List (Vertex K),
      ComputeLightVectors.reset
        (cs.foldl (fun vs c => ComputeLightVectors.corner sqrt U vs c.1 c.2.1 c.2.2) vs) =
      ComputeLightVectors.reset vs := by
  induction cs with
  | nil => intro vs; rfl
  | cons c cs ih =>
    intro vs
    rw [List.foldl_cons, ih, reset_corner]

theorem length_foldl_corner (sqrt : K → K) (U : Vector3 K) (cs : List (Nat × Nat × Nat)) :
    ∀ vs : List (Vertex K),
      (cs.foldl (fun vs c => ComputeLightVectors.corner sqrt U vs c.1 c.2.1 c.2.2) vs).length =
      vs.length := by
  induction cs with
  | nil => intro vs; rfl
  | cons c cs ih =>
    intro vs
    rw [List.foldl_cons, ih, length_corner]

/-- A light vector that is not `zero` is never overwritten by later corners. -/
theorem light_foldl_corner_of_ne_zero (sqrt : K → K) (U : Vector3 K)
    (cs : List (Nat × Nat × Nat)) (v : Nat) :
    ∀ vs : List (Vertex K), (vertexAt vs v).lightDirection ≠ zero →
      (vertexAt (cs.foldl
        (fun vs c => ComputeLightVectors.corner sqrt U vs c.1 c.2.1 c.2.2) vs) v).lightDirection =
      (vertexAt vs v).lightDirection := by
  induction cs with
  | nil => intro vs _; rfl
  | cons c cs ih =>
    intro vs hne
    have hstep : (vertexAt (ComputeLightVectors.corner sqrt U vs c.1 c.2.1 c.2.2) v).lightDirection
        = (vertexAt vs v).lightDirection := by
      rw [light_corner, if_neg]
      rintro ⟨hv, -, h0⟩
      exact hne (hv ▸ h0)
    rw [List.foldl_cons, ih _ (hstep ▸ hne), hstep]

/-- Value left at an existing vertex `v` whose flag is still `zero`: the light
vector of the first corner at `v` whose light vector is not `zero`, and `zero`
when there is no such corner. -/
theorem light_foldl_corner (sqrt : K → K) (U : Vector3 K) (vs0 : List (Vertex K))
    (cs : List (Nat × Nat × Nat)) (v : Nat) :
    ∀ vs : List (Vertex K), v < vs.length →
      ComputeLightVectors.reset vs = ComputeLightVectors.reset vs0 →
      (vertexAt vs v).lightDirection = zero →
      (vertexAt (cs.foldl
        (fun vs c => ComputeLightVectors.corner sqrt U vs c.1 c.2.1 c.2.2) vs) v).lightDirection =
      match cs.find? (fun c => decide (c.1 = v ∧
          ComputeLightVectors.lightVector sqrt U vs0 c.1 c.2.1 c.2.2 ≠ zero)) with
      | some c => ComputeLightVectors.lightVector sqrt U vs0 c.1 c.2.1 c.2.2
      | none => zero := by
  induction cs with
  | nil => intro vs _ _ h0; simpa using h0
  | cons c cs ih =>
    intro vs hv hr h0
    rw [List.foldl_cons, List.find?_cons]
    have hval := lightVector_congr sqrt U hr c.1 c.2.1 c.2.2
    by_cases hc : c.1 = v ∧ ComputeLightVectors.lightVector sqrt U vs0 c.1 c.2.1 c.2.2 ≠ zero
    · have hstep : (vertexAt (ComputeLightVectors.corner sqrt U vs c.1 c.2.1 c.2.2)
          v).lightDirection = ComputeLightVectors.lightVector sqrt U vs0 c.1 c.2.1 c.2.2 := by
        rw [light_corner, if_pos ⟨hc.1.symm, hc.1 ▸ hv, hc.1 ▸ h0⟩, hval]
      rw [light_foldl_corner_of_ne_zero sqrt U cs v _ (hstep ▸ hc.2), hstep]
      simp only [decide_eq_true hc]
    · have hstep : (vertexAt (ComputeLightVectors.corner sqrt U vs c.1 c.2.1 c.2.2)
          v).lightDirection = zero := by
        rw [light_corner]
        split_ifs with h
        · rw [hval]
          by_contra hne
          exact hc ⟨h.1.symm, hne⟩
        · exact h0
      rw [ih _ (by rw [length_corner]; exact hv) (by rw [reset_corner]; exact hr) hstep]
      simp only [decide_eq_false hc]

theorem find?_eq_some_of_imp {α : Type} (p q : α → Bool) (c : α) :
    ∀ l : List α, l.find? q = some c → p c = true → (∀ x, p x = true → q x = true) →
      l.find? p = some c := by
  intro l
  induction l with
  | nil => intro h; simp at h
  | cons a l ih =>
    intro h hp hpq
    rw [List.find?_cons] at h ⊢
    cases hq : q a with
    | true =>
      rw [hq] at h
      have hac : a = c := Option.some.inj h
      rw [hac, hp]
    | false =>
      rw [hq] at h
      have hpa : p a = false := by
        cases hpa : p a with
        | true => rw [hpq a hpa] at hq; exact absurd hq (by simp)
        | false => rfl
      rw [hpa]
      exact ih h hp hpq

theorem find?_eq_none_of_forall {α : Type} (p : α → Bool) :
    ∀ l : List α, (∀ x ∈ l, p x = false) → l.find? p = none := by
  intro l h
  rw [List.find?_eq_none]
  intro x hx
  rw [h x hx]
  simp

/-- Final light vector of an existing vertex, read off the corner list. -/
theorem light_ComputeLightVectors (sqrt : K → K) (mesh : Visual K) (D : Vector4 K) (v : Nat)
    (hv : v < mesh.vertexBuffer.length) :
    (vertexAt (ComputeLightVectors sqrt mesh D).vertexBuffer v).lightDirection =
      match (cornerOrder mesh.indexBuffer).find? (fun c => decide (c.1 = v ∧
          ComputeLightVectors.lightVector sqrt
            (ComputeLightVectors.modelLightDirection mesh.worldTransformHInverse D)
            mesh.vertexBuffer c.1 c.2.1 c.2.2 ≠ zero)) with
      | some c => ComputeLightVectors.lightVector sqrt
            (ComputeLightVectors.modelLightDirection mesh.worldTransformHInverse D)
            mesh.vertexBuffer c.1 c.2.1 c.2.2
      | none => zero := by
  unfold ComputeLightVectors
  simp only [triangles_eq_foldl]
  apply light_foldl_corner
  · rw [length_reset]; exact hv
  · exact reset_reset _
  · rw [vertexAt_reset]

/-- Final light vector of an existing vertex when the first corner at that
vertex has a light vector other than `zero`. -/
theorem light_ComputeLightVectors_first (sqrt : K → K) (mesh : Visual K) (D : Vector4 K)
    (v v1 v2 : Nat) (hv : v < mesh.vertexBuffer.length)
    (hfirst : (cornerOrder mesh.indexBuffer).find? (fun c => decide (c.1 = v)) =
      some (v, v1, v2))
    (hne : ComputeLightVectors.lightVector sqrt
        (ComputeLightVectors.modelLightDirection mesh.worldTransformHInverse D)
        mesh.vertexBuffer v v1 v2 ≠ zero) :
    (vertexAt (ComputeLightVectors sqrt mesh D).vertexBuffer v).lightDirection =
      ComputeLightVectors.lightVector sqrt
        (ComputeLightVectors.modelLightDirection mesh.worldTransformHInverse D)
        mesh.vertexBuffer v v1 v2 := by
  rw [light_ComputeLightVectors sqrt mesh D v hv]
  rw [find?_eq_some_of_imp _ _ (v, v1, v2) _ hfirst]
  · exact decide_eq_true ⟨rfl, hne⟩
  · intro x hx
    exact decide_eq_true (of_decide_eq_true hx).1

theorem reset_ComputeLightVectors (sqrt : K → K) (mesh : Visual K) (D : Vector4 K) :
    ComputeLightVectors.reset (ComputeLightVectors sqrt mesh D).vertexBuffer =
      ComputeLightVectors.reset mesh.vertexBuffer := by
  unfold ComputeLightVectors
  simp only [triangles_eq_foldl, reset_foldl_corner, reset_reset]

theorem reset_eq_of_fields (vb1 vb2 : List (Vertex K)) (hlen : vb1.length = vb2.length)
    (h : ∀ i, i < vb1.length →
      (vertexAt vb1 i).position = (vertexAt vb2 i).position ∧
      (vertexAt vb1 i).normal = (vertexAt vb2 i).normal ∧
      (vertexAt vb1 i).baseTCoord = (vertexAt vb2 i).baseTCoord ∧
      (vertexAt vb1 i).normalTCoord = (vertexAt vb2 i).normalTCoord) :
    ComputeLightVectors.reset vb1 = ComputeLightVectors.reset vb2 := by
  apply List.ext_getElem (by rw [length_reset, length_reset, hlen])
  intro i h1 h2
  rw [length_reset] at h1
  rw [length_reset] at h2
  have hi := h i h1
  unfold vertexAt at hi
  simp only [List.getD_eq_getElem?_getD, List.getElem?_eq_getElem h1,
    List.getElem?_eq_getElem h2, Option.getD_some] at hi
  simp only [ComputeLightVectors.reset, List.getElem_map, Vertex.mk.injEq]
  exact ⟨hi.1, hi.2.1, trivial, hi.2.2.1, hi.2.2.2⟩

/-- C12: degenerate corners fall back to the raw normal.  For an existing
vertex `v` with non-zero normal, if `ComputeTangent` fails at the first corner
(in index-buffer order) that references `v`, then after `ComputeLightVectors`
the light vector of `v` is its normal itself (not the encoded `0.5*(x+1)`),
and it is not the zero sentinel. -/
theorem ComputeLightVectors_fallback_is_normal (sqrt : K → K) (mesh : Visual K)
    (D : Vector4 K) (v v1 v2 : Nat) (hv : v < mesh.vertexBuffer.length)
    (hn : (vertexAt mesh.vertexBuffer v).normal ≠ zero)
    (hfirst : (cornerOrder mesh.indexBuffer).find? (fun c => decide (c.1 = v)) =
      some (v, v1, v2))
    (hfail : ComputeTangent sqrt
      (vertexAt mesh.vertexBuffer v).position (vertexAt mesh.vertexBuffer v).baseTCoord
      (vertexAt mesh.vertexBuffer v1).position (vertexAt mesh.vertexBuffer v1).baseTCoord
      (vertexAt mesh.vertexBuffer v2).position (vertexAt mesh.vertexBuffer v2).baseTCoord
      = none) :
    (vertexAt (ComputeLightVectors sqrt mesh D).vertexBuffer v).lightDirection =
      (vertexAt mesh.vertexBuffer v).normal ∧
    (vertexAt (ComputeLightVectors sqrt mesh D).vertexBuffer v).lightDirection ≠ zero := by
  have hval : ComputeLightVectors.lightVector sqrt
      (ComputeLightVectors.modelLightDirection mesh.worldTransformHInverse D)
      mesh.vertexBuffer v v1 v2 = (vertexAt mesh.vertexBuffer v).normal := by
    unfold ComputeLightVectors.lightVector
    simp only [hfail]
  have hfin := light_ComputeLightVectors_first sqrt mesh D v v1 v2 hv hfirst
    (by rw [hval]; exact hn)
  rw [hval] at hfin
  exact ⟨hfin, by rw [hfin]; exact hn⟩

/-- C13: `ComputeLightVectors` changes only the `lightDirection` members.  The
number of vertices, the index list and the world transform are those of the
input, and at every index the position, normal, `baseTCoord` and
`normalTCoord` are those of the input. -/
theorem ComputeLightVectors_changes_only_lightDirection (sqrt : K → K) (mesh : Visual K)
    (D : Vector4 K) :
    (ComputeLightVectors sqrt mesh D).vertexBuffer.length = mesh.vertexBuffer.length ∧
    (ComputeLightVectors sqrt mesh D).indexBuffer = mesh.indexBuffer ∧
    (ComputeLightVectors sqrt mesh D).worldTransformHInverse = mesh.worldTransformHInverse ∧
    ∀ i : Nat,
      (vertexAt (ComputeLightVectors sqrt mesh D).vertexBuffer i).position =
        (vertexAt mesh.vertexBuffer i).position ∧
      (vertexAt (ComputeLightVectors sqrt mesh D).vertexBuffer i).normal =
        (vertexAt mesh.vertexBuffer i).normal ∧
      (vertexAt (ComputeLightVectors sqrt mesh D).vertexBuffer i).baseTCoord =
        (vertexAt mesh.vertexBuffer i).baseTCoord ∧
      (vertexAt (ComputeLightVectors sqrt mesh D).vertexBuffer i).normalTCoord =
        (vertexAt mesh.vertexBuffer i).normalTCoord := by
  refine ⟨?_, rfl, rfl, fun i =>
    vertexAt_fields_of_reset_eq (reset_ComputeLightVectors sqrt mesh D) i⟩
  unfold ComputeLightVectors
  simp only [triangles_eq_foldl, length_foldl_corner, length_reset]

/-- C15 (amended): for an existing vertex `v` referenced by some triangle, if
the light vector produced at the first corner (in index-buffer order) that
references `v` is not (0,0,0), then the final light vector of `v` is that
value; and a corner step never changes a light vector that is not (0,0,0), so
no later corner at `v` changes it. -/
theorem ComputeLightVectors_first_corner_wins (sqrt : K → K) (mesh : Visual K)
    (D : Vector4 K) (v v1 v2 : Nat) (hv : v < mesh.vertexBuffer.length)
    (hfirst : (cornerOrder mesh.indexBuffer).find? (fun c => decide (c.1 = v)) =
      some (v, v1, v2))
    (hne : ComputeLightVectors.lightVector sqrt
        (ComputeLightVectors.modelLightDirection mesh.worldTransformHInverse D)
        mesh.vertexBuffer v v1 v2 ≠ zero) :
    (vertexAt (ComputeLightVectors sqrt mesh D).vertexBuffer v).lightDirection =
      ComputeLightVectors.lightVector sqrt
        (ComputeLightVectors.modelLightDirection mesh.worldTransformHInverse D)
        mesh.vertexBuffer v v1 v2 ∧
    ∀ (vs : List (Vertex K)) (a b c : Nat), (vertexAt vs v).lightDirection ≠ zero →
      (vertexAt (ComputeLightVectors.corner sqrt
        (ComputeLightVectors.modelLightDirection mesh.worldTransformHInverse D)
        vs a b c) v).lightDirection = (vertexAt vs v).lightDirection := by
  refine ⟨light_ComputeLightVectors_first sqrt mesh D v v1 v2 hv hfirst hne, ?_⟩
  intro vs a b c h
  rw [light_corner, if_neg]
  rintro ⟨hva, -, h0⟩
  exact h (hva ▸ h0)

/-- C19: the result of `ComputeLightVectors` does not depend on the light
vectors the mesh held before the call.  Two meshes with the same transform and
index list whose vertex arrays agree on every member except `lightDirection`
give identical meshes; hence calling twice in a row gives the same mesh as
calling once; and a vertex that is the corner of no triangle ends at
(0,0,0). -/
theorem ComputeLightVectors_independent_of_old_light (sqrt : K → K) (D : Vector4 K) :
    (∀ m1 m2 : Visual K,
      m1.worldTransformHInverse = m2.worldTransformHInverse →
      m1.indexBuffer = m2.indexBuffer →
      m1.vertexBuffer.length = m2.vertexBuffer.length →
      (∀ i, i < m1.vertexBuffer.length →
        (vertexAt m1.vertexBuffer i).position = (vertexAt m2.vertexBuffer i).position ∧
        (vertexAt m1.vertexBuffer i).normal = (vertexAt m2.vertexBuffer i).normal ∧
        (vertexAt m1.vertexBuffer i).baseTCoord = (vertexAt m2.vertexBuffer i).baseTCoord ∧
        (vertexAt m1.vertexBuffer i).normalTCoord =
          (vertexAt m2.vertexBuffer i).normalTCoord) →
      ComputeLightVectors sqrt m1 D = ComputeLightVectors sqrt m2 D) ∧
    (∀ mesh : Visual K,
      ComputeLightVectors sqrt (ComputeLightVectors sqrt mesh D) D =
        ComputeLightVectors sqrt mesh D) ∧
    (∀ (mesh : Visual K) (v : Nat),
      (∀ c ∈ cornerOrder mesh.indexBuffer, c.1 ≠ v) →
      (vertexAt (ComputeLightVectors sqrt mesh D).vertexBuffer v).lightDirection = zero) := by
  have key : ∀ m1 m2 : Visual K,
      m1.worldTransformHInverse = m2.worldTransformHInverse →
      m1.indexBuffer = m2.indexBuffer →
      ComputeLightVectors.reset m1.vertexBuffer = ComputeLightVectors.reset m2.vertexBuffer →
      ComputeLightVectors sqrt m1 D = ComputeLightVectors sqrt m2 D := by
    intro m1 m2 hW hI hR
    unfold ComputeLightVectors
    simp only [hW, hI, hR]
  refine ⟨?_, ?_, ?_⟩
  · intro m1 m2 hW hI hlen hf
    exact key m1 m2 hW hI (reset_eq_of_fields _ _ hlen hf)
  · intro mesh
    exact key _ _ rfl rfl (reset_ComputeLightVectors sqrt mesh D)
  · intro mesh v hno
    by_cases hv : v < mesh.vertexBuffer.length
    · rw [light_ComputeLightVectors sqrt mesh D v hv, find?_eq_none_of_forall]
      intro x hx
      exact decide_eq_false (fun h => hno x hx h.1)
    · have hlen : (ComputeLightVectors sqrt mesh D).vertexBuffer.length ≤ v := by
        unfold ComputeLightVectors
        simp only [triangles_eq_foldl, length_foldl_corner, length_reset]
        exact not_lt.mp hv
      unfold vertexAt
      rw [List.getD_eq_getElem?_getD, List.getElem?_eq_none hlen]
      rfl

end LightVectorLoops

/-! ## Light vectors: the tangent frame -/

section TangentFrame

variable {K : Type} [LinearOrderedField K]

theorem Dot_comm (a b : Vector3 K) : Dot a b = Dot b a := by
  simp only [Dot]; ring

theorem Dot_divScalar (a b : Vector3 K) (s : K) : Dot a (b / s) = Dot a b / s := by
  simp only [Dot, Vector3.div_def]; ring

theorem Dot_zero_right (a : Vector3 K) : Dot a (⟨0, 0, 0⟩ : Vector3 K) = 0 := by
  simp [Dot]

theorem Dot_Cross_left (a b : Vector3 K) : Dot a (Cross a b) = 0 := by
  simp only [Dot, Cross]; ring

theorem Dot_Cross_right (a b : Vector3 K) : Dot b (Cross a b) = 0 := by
  simp only [Dot, Cross]; ring

theorem Dot_self_nonneg (a : Vector3 K) : 0 ≤ Dot a a := by
  simp only [Dot]
  nlinarith [mul_self_nonneg a.x, mul_self_nonneg a.y, mul_self_nonneg a.z]

theorem Normalize_cases (sqrt : K → K) (v : Vector3 K) :
    (0 < Length sqrt v ∧ Normalize sqrt v = v / Length sqrt v) ∨
    Normalize sqrt v = ⟨0, 0, 0⟩ := by
  unfold Normalize
  by_cases h : 0 < Length sqrt v
  · left; exact ⟨h, by simp only [if_pos h]⟩
  · right; simp only [if_neg h]

theorem Dot_Normalize_eq_zero (sqrt : K → K) (a v : Vector3 K) (h : Dot a v = 0) :
    Dot a (Normalize sqrt v) = 0 := by
  rcases Normalize_cases sqrt v with ⟨-, hN⟩ | hN
  · rw [hN, Dot_divScalar, h, zero_div]
  · rw [hN, Dot_zero_right]

theorem Dot_sub_projection (N t : Vector3 K) (h : Dot N N = 1) :
    Dot N (t - Dot N t * N) = 0 := by
  have e : Dot N (t - Dot N t * N) = Dot N t - Dot N t * Dot N N := by
    simp only [Dot, Vector3.sub_def, Vector3.smul_def]; ring
  rw [e, h]; ring

/-- With the light along a unit normal the stored value is (1/2, 1/2, 1). -/
theorem frameCoordinates_along_normal (sqrt : K → K) (N t : Vector3 K) (h : Dot N N = 1) :
    ComputeLightVectors.frameCoordinates sqrt N N t = ⟨1 / 2, 1 / 2, 1⟩ := by
  unfold ComputeLightVectors.frameCoordinates ComputeLightVectors.tangentFrame UnitCross
  have hT : Dot N (Normalize sqrt (t - Dot N t * N)) = 0 :=
    Dot_Normalize_eq_zero sqrt N _ (Dot_sub_projection N t h)
  have hB : Dot N (Normalize sqrt (Cross N (Normalize sqrt (t - Dot N t * N)))) = 0 :=
    Dot_Normalize_eq_zero sqrt N _ (Dot_Cross_left N _)
  simp only [hT, hB, h]
  norm_num

theorem Dot_Cross_self (a b : Vector3 K) :
    Dot (Cross a b) (Cross a b) = Dot a a * Dot b b - Dot a b * Dot a b := by
  simp only [Dot, Cross]; ring

theorem Cross_Cross (a b : Vector3 K) :
    Cross b (Cross a b) =
      ⟨a.x * Dot b b - b.x * Dot b a, a.y * Dot b b - b.y * Dot b a,
       a.z * Dot b b - b.z * Dot b a⟩ := by
  simp only [Dot, Cross, Vector3.mk.injEq]
  refine ⟨?_, ?_, ?_⟩ <;> ring

theorem Dot_divScalar_self (v : Vector3 K) (s : K) :
    Dot (v / s) (v / s) = Dot v v / (s * s) := by
  simp only [Dot, Vector3.div_def]; ring

/-- Cauchy-Schwarz inequality for `Dot`. -/
theorem Dot_mul_self_le (a b : Vector3 K) : Dot a b * Dot a b ≤ Dot a a * Dot b b := by
  have h := Dot_self_nonneg (Cross a b)
  rw [Dot_Cross_self] at h
  linarith

theorem Dot_bounds_of_le_one (a b : Vector3 K) (ha : Dot a a ≤ 1) (hb : Dot b b ≤ 1) :
    -1 ≤ Dot a b ∧ Dot a b ≤ 1 := by
  have h := Dot_mul_self_le a b
  have h1 : Dot a a * Dot b b ≤ 1 := by
    calc Dot a a * Dot b b ≤ 1 * 1 :=
          mul_le_mul ha hb (Dot_self_nonneg b) zero_le_one
      _ = 1 := one_mul 1
  have h2 : Dot a b * Dot a b ≤ 1 := le_trans h h1
  constructor <;> nlinarith

theorem eq_zero_of_Dot_self_eq_zero (v : Vector3 K) (h : Dot v v = 0) : v = ⟨0, 0, 0⟩ := by
  simp only [Dot] at h
  have hx : v.x * v.x = 0 := by
    nlinarith [mul_self_nonneg v.x, mul_self_nonneg v.y, mul_self_nonneg v.z]
  have hy : v.y * v.y = 0 := by
    nlinarith [mul_self_nonneg v.x, mul_self_nonneg v.y, mul_self_nonneg v.z]
  have hz : v.z * v.z = 0 := by
    nlinarith [mul_self_nonneg v.x, mul_self_nonneg v.y, mul_self_nonneg v.z]
  apply Vector3.ext
  · exact mul_self_eq_zero.mp hx
  · exact mul_self_eq_zero.mp hy
  · exact mul_self_eq_zero.mp hz

theorem Length_eq_one_iff (v : Vector3 ℝ) : Length Real.sqrt v = 1 ↔ Dot v v = 1 := by
  unfold Length
  exact Real.sqrt_eq_one

theorem Dot_self_le_one_of_Length (v : Vector3 ℝ) (h : Length Real.sqrt v ≤ 1) :
    Dot v v ≤ 1 := by
  unfold Length at h
  have h0 := Dot_self_nonneg v
  have h1 := Real.mul_self_sqrt h0
  have h2 := Real.sqrt_nonneg (Dot v v)
  nlinarith

theorem Normalize_of_pos (v : Vector3 ℝ) (h : 0 < Dot v v) :
    Normalize Real.sqrt v = v / Real.sqrt (Dot v v) ∧
    Dot (Normalize Real.sqrt v) (Normalize Real.sqrt v) = 1 := by
  have hL : 0 < Length Real.sqrt v := Real.sqrt_pos.mpr h
  have hN : Normalize Real.sqrt v = v / Real.sqrt (Dot v v) := by
    unfold Normalize
    simp only [if_pos hL]
    rfl
  refine ⟨hN, ?_⟩
  rw [hN, Dot_divScalar_self, Real.mul_self_sqrt h.le]
  exact div_self h.ne.symm

theorem Dot_Normalize_self_le_one (v : Vector3 ℝ) :
    Dot (Normalize Real.sqrt v) (Normalize Real.sqrt v) ≤ 1 := by
  by_cases h : 0 < Dot v v
  · exact (Normalize_of_pos v h).2.le
  · have hL : ¬ 0 < Length Real.sqrt v := fun hL => h (Real.sqrt_pos.mp hL)
    unfold Normalize
    simp only [if_neg hL]
    rw [Dot_zero_right]
    exact zero_le_one

/-- C17: the frame built at a corner is right-handed orthonormal, in real
arithmetic.  For a unit-length normal `N` and a tangent `t` that is not a
multiple of `N`, the vector `T` obtained by subtracting `Dot(N,t)*N` and
normalizing, and `B = UnitCross(N,T)`, satisfy `|T| = |B| = 1`, `T.N = 0`,
`B.N = 0`, `T.B = 0` and `Cross(T,B) = N`. -/
theorem tangentFrame_right_handed_orthonormal (N t : Vector3 ℝ)
    (hN : Length Real.sqrt N = 1) (ht : ∀ c : ℝ, t ≠ c * N) :
    Length Real.sqrt (ComputeLightVectors.tangentFrame Real.sqrt N t).1 = 1 ∧
    Length Real.sqrt (ComputeLightVectors.tangentFrame Real.sqrt N t).2 = 1 ∧
    Dot (ComputeLightVectors.tangentFrame Real.sqrt N t).1 N = 0 ∧
    Dot (ComputeLightVectors.tangentFrame Real.sqrt N t).2 N = 0 ∧
    Dot (ComputeLightVectors.tangentFrame Real.sqrt N t).1
      (ComputeLightVectors.tangentFrame Real.sqrt N t).2 = 0 ∧
    Cross (ComputeLightVectors.tangentFrame Real.sqrt N t).1
      (ComputeLightVectors.tangentFrame Real.sqrt N t).2 = N := by
  have hNN : Dot N N = 1 := (Length_eq_one_iff N).mp hN
  have hw : 0 < Dot (t - Dot N t * N) (t - Dot N t * N) := by
    rcases (Dot_self_nonneg (t - Dot N t * N)).lt_or_eq with h | h
    · exact h
    · exfalso
      have hz := eq_zero_of_Dot_self_eq_zero _ h.symm
      apply ht (Dot N t)
      simp only [Vector3.sub_def, Vector3.smul_def, Vector3.mk.injEq] at hz
      apply Vector3.ext
      · simp only [Vector3.smul_def]; linarith [hz.1]
      · simp only [Vector3.smul_def]; linarith [hz.2.1]
      · simp only [Vector3.smul_def]; linarith [hz.2.2]
  obtain ⟨-, hTT⟩ := Normalize_of_pos _ hw
  have hNT : Dot N (Normalize Real.sqrt (t - Dot N t * N)) = 0 :=
    Dot_Normalize_eq_zero Real.sqrt N _ (Dot_sub_projection N t hNN)
  have hCC : Dot (Cross N (Normalize Real.sqrt (t - Dot N t * N)))
      (Cross N (Normalize Real.sqrt (t - Dot N t * N))) = 1 := by
    rw [Dot_Cross_self, hNN, hTT, hNT]; ring
  obtain ⟨hB, hBB⟩ := Normalize_of_pos _ (by rw [hCC]; exact one_pos)
  rw [hCC, Real.sqrt_one] at hB
  have hB2 : Normalize Real.sqrt (Cross N (Normalize Real.sqrt (t - Dot N t * N))) =
      Cross N (Normalize Real.sqrt (t - Dot N t * N)) := by
    rw [hB, Vector3.div_def]
    simp only [div_one]
  simp only [ComputeLightVectors.tangentFrame, UnitCross]
  refine ⟨?_, ?_, ?_, ?_, ?_, ?_⟩
  · rw [Length_eq_one_iff]; exact hTT
  · rw [Length_eq_one_iff]; exact hBB
  · rw [Dot_comm]; exact hNT
  · rw [Dot_comm]; exact Dot_Normalize_eq_zero Real.sqrt N _ (Dot_Cross_left N _)
  · rw [hB2]; exact Dot_Cross_right N _
  · rw [hB2, Cross_Cross, hTT, Dot_comm _ N, hNT]
    apply Vector3.ext <;> simp

/-- Instance of C17: normal (0,0,1) and tangent (1,0,0). -/
theorem tangentFrame_right_handed_orthonormal_witness :
    Length Real.sqrt (⟨0, 0, 1⟩ : Vector3 ℝ) = 1 ∧
    (∀ c : ℝ, (⟨1, 0, 0⟩ : Vector3 ℝ) ≠ c * (⟨0, 0, 1⟩ : Vector3 ℝ)) ∧
    Length Real.sqrt (ComputeLightVectors.tangentFrame Real.sqrt
      (⟨0, 0, 1⟩ : Vector3 ℝ) ⟨1, 0, 0⟩).1 = 1 ∧
    Cross (ComputeLightVectors.tangentFrame Real.sqrt (⟨0, 0, 1⟩ : Vector3 ℝ) ⟨1, 0, 0⟩).1
      (ComputeLightVectors.tangentFrame Real.sqrt (⟨0, 0, 1⟩ : Vector3 ℝ) ⟨1, 0, 0⟩).2 =
      ⟨0, 0, 1⟩ :=
  have hN : Length Real.sqrt (⟨0, 0, 1⟩ : Vector3 ℝ) = 1 := by
    norm_num [Length, Dot]
  have ht : ∀ c : ℝ, (⟨1, 0, 0⟩ : Vector3 ℝ) ≠ c * (⟨0, 0, 1⟩ : Vector3 ℝ) := by
    intro c h
    simp [Vector3.smul_def] at h
  ⟨hN, ht, (tangentFrame_right_handed_orthonormal ⟨0, 0, 1⟩ ⟨1, 0, 0⟩ hN ht).1,
    (tangentFrame_right_handed_orthonormal ⟨0, 0, 1⟩ ⟨1, 0, 0⟩ hN ht).2.2.2.2.2⟩

theorem frameCoordinates_in_unit_cube (U N t : Vector3 ℝ) (hN : Dot N N ≤ 1)
    (hU : Dot U U ≤ 1) :
    (0 ≤ (ComputeLightVectors.frameCoordinates Real.sqrt U N t).x ∧
      (ComputeLightVectors.frameCoordinates Real.sqrt U N t).x ≤ 1) ∧
    (0 ≤ (ComputeLightVectors.frameCoordinates Real.sqrt U N t).y ∧
      (ComputeLightVectors.frameCoordinates Real.sqrt U N t).y ≤ 1) ∧
    (0 ≤ (ComputeLightVectors.frameCoordinates Real.sqrt U N t).z ∧
      (ComputeLightVectors.frameCoordinates Real.sqrt U N t).z ≤ 1) := by
  simp only [ComputeLightVectors.frameCoordinates, ComputeLightVectors.tangentFrame, UnitCross]
  have hT := Dot_bounds_of_le_one U _ hU
    (Dot_Normalize_self_le_one (t - Dot N t * N))
  have hB := Dot_bounds_of_le_one U _ hU
    (Dot_Normalize_self_le_one (Cross N (Normalize Real.sqrt (t - Dot N t * N))))
  have hNb := Dot_bounds_of_le_one U N hU hN
  refine ⟨⟨?_, ?_⟩, ⟨?_, ?_⟩, ⟨?_, ?_⟩⟩ <;> linarith [hT.1, hT.2, hB.1, hB.2, hNb.1, hNb.2]

theorem lightVector_of_some (sqrt : K → K) (U : Vector3 K) (vs : List (Vertex K))
    (v0 v1 v2 : Nat) (t : Vector3 K)
    (h : ComputeTangent sqrt
      (vertexAt vs v0).position (vertexAt vs v0).baseTCoord
      (vertexAt vs v1).position (vertexAt vs v1).baseTCoord
      (vertexAt vs v2).position (vertexAt vs v2).baseTCoord = some t) :
    ComputeLightVectors.lightVector sqrt U vs v0 v1 v2 =
      ComputeLightVectors.frameCoordinates sqrt U (vertexAt vs v0).normal t := by
  unfold ComputeLightVectors.lightVector
  simp only [h]

theorem lightVector_of_none (sqrt : K → K) (U : Vector3 K) (vs : List (Vertex K))
    (v0 v1 v2 : Nat)
    (h : ComputeTangent sqrt
      (vertexAt vs v0).position (vertexAt vs v0).baseTCoord
      (vertexAt vs v1).position (vertexAt vs v1).baseTCoord
      (vertexAt vs v2).position (vertexAt vs v2).baseTCoord = none) :
    ComputeLightVectors.lightVector sqrt U vs v0 v1 v2 = (vertexAt vs v0).normal := by
  unfold ComputeLightVectors.lightVector
  simp only [h]

/-- C20: on the non-fallback path the encoding stays in range, in real
arithmetic.  At a corner where `ComputeTangent` succeeds, if the normal has
length 1 and the model-space light vector `U` has length at most 1, each of
the three stored components `0.5*(U.T+1)`, `0.5*(U.B+1)`, `0.5*(U.N+1)` lies
in [0,1]. -/
theorem lightVector_in_unit_cube (U : Vector3 ℝ) (vs : List (Vertex ℝ)) (v0 v1 v2 : Nat)
    (t : Vector3 ℝ)
    (hT : ComputeTangent Real.sqrt
      (vertexAt vs v0).position (vertexAt vs v0).baseTCoord
      (vertexAt vs v1).position (vertexAt vs v1).baseTCoord
      (vertexAt vs v2).position (vertexAt vs v2).baseTCoord = some t)
    (hN : Length Real.sqrt (vertexAt vs v0).normal = 1)
    (hU : Length Real.sqrt U ≤ 1) :
    ComputeLightVectors.lightVector Real.sqrt U vs v0 v1 v2 =
      ⟨1 / 2 * (Dot U (ComputeLightVectors.tangentFrame Real.sqrt
          (vertexAt vs v0).normal t).1 + 1),
       1 / 2 * (Dot U (ComputeLightVectors.tangentFrame Real.sqrt
          (vertexAt vs v0).normal t).2 + 1),
       1 / 2 * (Dot U (vertexAt vs v0).normal + 1)⟩ ∧
    (0 ≤ (ComputeLightVectors.lightVector Real.sqrt U vs v0 v1 v2).x ∧
      (ComputeLightVectors.lightVector Real.sqrt U vs v0 v1 v2).x ≤ 1) ∧
    (0 ≤ (ComputeLightVectors.lightVector Real.sqrt U vs v0 v1 v2).y ∧
      (ComputeLightVectors.lightVector Real.sqrt U vs v0 v1 v2).y ≤ 1) ∧
    (0 ≤ (ComputeLightVectors.lightVector Real.sqrt U vs v0 v1 v2).z ∧
      (ComputeLightVectors.lightVector Real.sqrt U vs v0 v1 v2).z ≤ 1) := by
  rw [lightVector_of_some Real.sqrt U vs v0 v1 v2 t hT]
  exact ⟨rfl, frameCoordinates_in_unit_cube U _ t ((Length_eq_one_iff _).mp hN).le
    (Dot_self_le_one_of_Length U hU)⟩

/-- C11 (amended): in real arithmetic, for a mesh whose normals have length 1
and a world light direction whose model-space image has length at most 1,
after `ComputeLightVectors` the light vector of every vertex either equals
that vertex's normal (the fallback) or has all three components in [0,1]. -/
theorem ComputeLightVectors_normal_or_unit_cube (mesh : Visual ℝ) (D : Vector4 ℝ)
    (hN : ∀ i, i < mesh.vertexBuffer.length →
      Length Real.sqrt (vertexAt mesh.vertexBuffer i).normal = 1)
    (hU : Length Real.sqrt
      (ComputeLightVectors.modelLightDirection mesh.worldTransformHInverse D) ≤ 1)
    (i : Nat) (hi : i < mesh.vertexBuffer.length) :
    (vertexAt (ComputeLightVectors Real.sqrt mesh D).vertexBuffer i).lightDirection =
      (vertexAt (ComputeLightVectors Real.sqrt mesh D).vertexBuffer i).normal ∨
    ((0 ≤ (vertexAt (ComputeLightVectors Real.sqrt mesh D).vertexBuffer i).lightDirection.x ∧
      (vertexAt (ComputeLightVectors Real.sqrt mesh D).vertexBuffer i).lightDirection.x ≤ 1) ∧
     (0 ≤ (vertexAt (ComputeLightVectors Real.sqrt mesh D).vertexBuffer i).lightDirection.y ∧
      (vertexAt (ComputeLightVectors Real.sqrt mesh D).vertexBuffer i).lightDirection.y ≤ 1) ∧
     (0 ≤ (vertexAt (ComputeLightVectors Real.sqrt mesh D).vertexBuffer i).lightDirection.z ∧
      (vertexAt (ComputeLightVectors Real.sqrt mesh D).vertexBuffer i).lightDirection.z ≤ 1)) := by
  have hnorm := (vertexAt_fields_of_reset_eq
    (reset_ComputeLightVectors Real.sqrt mesh D) i).2.1
  rw [hnorm, light_ComputeLightVectors Real.sqrt mesh D i hi]
  cases hf : (cornerOrder mesh.indexBuffer).find? (fun c => decide (c.1 = i ∧
      ComputeLightVectors.lightVector Real.sqrt
        (ComputeLightVectors.modelLightDirection mesh.worldTransformHInverse D)
        mesh.vertexBuffer c.1 c.2.1 c.2.2 ≠ zero)) with
  | none =>
    right
    simp [zero]
  | some c =>
    have hpa := List.find?_some hf
    have hc : c.1 = i := (of_decide_eq_true hpa).1
    simp only
    cases hct : ComputeTangent Real.sqrt
      (vertexAt mesh.vertexBuffer c.1).position (vertexAt mesh.vertexBuffer c.1).baseTCoord
      (vertexAt mesh.vertexBuffer c.2.1).position (vertexAt mesh.vertexBuffer c.2.1).baseTCoord
      (vertexAt mesh.vertexBuffer c.2.2).position (vertexAt mesh.vertexBuffer c.2.2).baseTCoord with
    | none =>
      left
      rw [lightVector_of_none Real.sqrt _ _ _ _ _ hct, hc]
    | some t =>
      right
      rw [lightVector_of_some Real.sqrt _ _ _ _ _ t hct]
      exact frameCoordinates_in_unit_cube _ _ t
        ((Length_eq_one_iff _).mp (hN c.1 (hc ▸ hi))).le
        (Dot_self_le_one_of_Length _ hU)

end TangentFrame

/-! ## Light vectors: concrete scenarios -/

section Scenarios

theorem Vector4.neg_def {K : Type} [LinearOrderedField K] (v : Vector4 K) :
    -v = (⟨-v.x, -v.y, -v.z, -v.w⟩ : Vector4 K) := rfl

theorem sqrt_two_gt_epsilon : ¬ (Real.sqrt 2 ≤ 1 / 100000000) := by
  rw [not_le]
  calc (1 / 100000000 : ℝ) < 1 := by norm_num
    _ = Real.sqrt 1 := Real.sqrt_one.symm
    _ ≤ Real.sqrt 2 := Real.sqrt_le_sqrt (by norm_num)

/-- C11, as stated, fails on the fallback path.  Over the reals, for the unit
triangle with unit normals (0,0,-1), in-range indices 0, 1, 2, identical
texture coordinates, identity transform and light direction (0,0,-1,0),
`ComputeTangent` fails at the first corner of vertex 0 and the vertex ends
with light vector (0,0,-1), whose last component is below 0. -/
theorem ComputeLightVectors_unit_cube_counterexample :
    Length Real.sqrt (⟨0, 0, -1⟩ : Vector3 ℝ) = 1 ∧
    (∀ j ∈ (downwardNormalScenario ℝ).indexBuffer, j <
        (downwardNormalScenario ℝ).vertexBuffer.length) ∧
    (vertexAt (ComputeLightVectors Real.sqrt (downwardNormalScenario ℝ)
        (lightAlongMinusZ ℝ)).vertexBuffer 0).lightDirection =
      ⟨0, 0, -1⟩ ∧
    ¬ (0 ≤ (vertexAt (ComputeLightVectors Real.sqrt (downwardNormalScenario ℝ)
        (lightAlongMinusZ ℝ)).vertexBuffer 0).lightDirection.z) := by
  have hval : ComputeLightVectors.lightVector Real.sqrt
      (ComputeLightVectors.modelLightDirection (downwardNormalScenario ℝ).worldTransformHInverse
          (lightAlongMinusZ ℝ))
      (downwardNormalScenario ℝ).vertexBuffer 0 1 2 = ⟨0, 0, -1⟩ := by
    apply (lightVector_of_none _ _ _ _ _ _ _).trans
    · simp [unitTriangleMesh, unitTriangleScenario, scaledScenario, downwardNormalScenario,
      equalTCoordScenario, shearedScenario, vertexAt]
    · norm_num [unitTriangleMesh, unitTriangleScenario, scaledScenario, downwardNormalScenario,
      equalTCoordScenario, shearedScenario, vertexAt, ComputeTangent, Length, Dot, epsilon,
        Vector3.sub_def]
  have hfin := light_ComputeLightVectors_first Real.sqrt (downwardNormalScenario ℝ)
      (lightAlongMinusZ ℝ) 0 1 2
    (by simp [unitTriangleMesh, unitTriangleScenario, scaledScenario, downwardNormalScenario,
      equalTCoordScenario, shearedScenario]) rfl (by rw [hval]; simp [zero])
  rw [hval] at hfin
  refine ⟨by norm_num [Length, Dot], ?_, hfin, ?_⟩
  · intro j hj
    simp [unitTriangleMesh, unitTriangleScenario, scaledScenario, downwardNormalScenario,
      equalTCoordScenario, shearedScenario] at hj ⊢
    omega
  · rw [hfin]; norm_num

/-- Instance of C12 over the reals: the unit triangle with normal (0,0,1) and
three identical texture coordinates; vertex 1 is first met at the corner
(1, 2, 0), where `ComputeTangent` fails. -/
theorem ComputeLightVectors_fallback_is_normal_witness :
    1 < (equalTCoordScenario ℝ).vertexBuffer.length ∧
    (vertexAt (equalTCoordScenario ℝ).vertexBuffer 1).normal ≠ zero ∧
    (cornerOrder (equalTCoordScenario ℝ).indexBuffer).find? (fun c => decide (c.1 = 1)) =
      some (1, 2, 0) ∧
    ComputeTangent Real.sqrt
      (vertexAt (equalTCoordScenario ℝ).vertexBuffer 1).position (vertexAt
          (equalTCoordScenario ℝ).vertexBuffer 1).baseTCoord
      (vertexAt (equalTCoordScenario ℝ).vertexBuffer 2).position (vertexAt
          (equalTCoordScenario ℝ).vertexBuffer 2).baseTCoord
      (vertexAt (equalTCoordScenario ℝ).vertexBuffer 0).position (vertexAt
          (equalTCoordScenario ℝ).vertexBuffer 0).baseTCoord
      = none ∧
    (vertexAt (ComputeLightVectors Real.sqrt (equalTCoordScenario ℝ)
        (lightAlongMinusZ ℝ)).vertexBuffer 1).lightDirection =
      (vertexAt (equalTCoordScenario ℝ).vertexBuffer 1).normal ∧
    (vertexAt (ComputeLightVectors Real.sqrt (equalTCoordScenario ℝ)
        (lightAlongMinusZ ℝ)).vertexBuffer 1).lightDirection ≠ zero :=
  have hv : 1 < (equalTCoordScenario ℝ).vertexBuffer.length := by simp [unitTriangleMesh,
      unitTriangleScenario, scaledScenario, downwardNormalScenario,
      equalTCoordScenario, shearedScenario]
  have hn : (vertexAt (equalTCoordScenario ℝ).vertexBuffer 1).normal ≠ zero := by
    simp [unitTriangleMesh, unitTriangleScenario, scaledScenario, downwardNormalScenario,
      equalTCoordScenario, shearedScenario, vertexAt, zero]
  have hfirst : (cornerOrder (equalTCoordScenario ℝ).indexBuffer).find? (fun c => decide (c.1 =
      1)) =
      some (1, 2, 0) := rfl
  have hfail : ComputeTangent Real.sqrt
      (vertexAt (equalTCoordScenario ℝ).vertexBuffer 1).position (vertexAt
          (equalTCoordScenario ℝ).vertexBuffer 1).baseTCoord
      (vertexAt (equalTCoordScenario ℝ).vertexBuffer 2).position (vertexAt
          (equalTCoordScenario ℝ).vertexBuffer 2).baseTCoord
      (vertexAt (equalTCoordScenario ℝ).vertexBuffer 0).position (vertexAt
          (equalTCoordScenario ℝ).vertexBuffer 0).baseTCoord
      = none := by
    norm_num [unitTriangleMesh, unitTriangleScenario, scaledScenario, downwardNormalScenario,
      equalTCoordScenario, shearedScenario, vertexAt, ComputeTangent, Length, Dot, epsilon,
      Vector3.sub_def, sqrt_two_gt_epsilon]
  ⟨hv, hn, hfirst, hfail,
    ComputeLightVectors_fallback_is_normal Real.sqrt (equalTCoordScenario ℝ)
        (lightAlongMinusZ ℝ) 1 2 0 hv hn hfirst hfail⟩

theorem modelLightDirection_identity :
    ComputeLightVectors.modelLightDirection (Matrix4x4.diagonal (1 : ℝ) 1 1 1)
        (lightAlongMinusZ ℝ) = ⟨0, 0, 1⟩ := by
  norm_num [ComputeLightVectors.modelLightDirection, DoTransform, HProject,
    Matrix4x4.diagonal, Vector4.neg_def, lightAlongMinusZ, lightAlongX]

theorem ComputeTangent_unit_corner0 :
    ComputeTangent Real.sqrt (⟨0, 0, 0⟩ : Vector3 ℝ) ⟨0, 0⟩ ⟨1, 0, 0⟩ ⟨1, 0⟩
      ⟨0, 1, 0⟩ ⟨0, 1⟩ = some ⟨1, 0, 0⟩ := by
  norm_num [ComputeTangent, Length, Dot, epsilon, Vector3.sub_def, Vector3.div_def]

theorem ComputeTangent_unit_corner1 :
    ComputeTangent Real.sqrt (⟨1, 0, 0⟩ : Vector3 ℝ) ⟨1, 0⟩ ⟨0, 1, 0⟩ ⟨0, 1⟩
      ⟨0, 0, 0⟩ ⟨0, 0⟩ = some ⟨1, 0, 0⟩ := by
  norm_num [ComputeTangent, Length, Dot, epsilon, Vector3.sub_def, Vector3.div_def,
    Vector3.smul_def, sqrt_two_gt_epsilon]

theorem ComputeTangent_unit_corner2 :
    ComputeTangent Real.sqrt (⟨0, 1, 0⟩ : Vector3 ℝ) ⟨0, 1⟩ ⟨0, 0, 0⟩ ⟨0, 0⟩
      ⟨1, 0, 0⟩ ⟨1, 0⟩ = some ⟨1, 0, 0⟩ := by
  norm_num [ComputeTangent, Length, Dot, epsilon, Vector3.sub_def, Vector3.div_def,
    Vector3.smul_def]

/-- Light vector of a corner when the light runs along the unit normal. -/
theorem lightVector_along_normal {K : Type} [LinearOrderedField K] (sqrt : K → K)
    (vs : List (Vertex K)) (v0 v1 v2 : Nat) (t : Vector3 K)
    (hT : ComputeTangent sqrt
      (vertexAt vs v0).position (vertexAt vs v0).baseTCoord
      (vertexAt vs v1).position (vertexAt vs v1).baseTCoord
      (vertexAt vs v2).position (vertexAt vs v2).baseTCoord = some t)
    (hN : Dot (vertexAt vs v0).normal (vertexAt vs v0).normal = 1) :
    ComputeLightVectors.lightVector sqrt (vertexAt vs v0).normal vs v0 v1 v2 =
      ⟨1 / 2, 1 / 2, 1⟩ := by
  rw [lightVector_of_some sqrt _ vs v0 v1 v2 t hT]
  exact frameCoordinates_along_normal sqrt _ t hN

/-- C14: light along the normal encodes to (0.5, 0.5, 1.0).  At every corner
with unit-length normal `N` (`Dot(N,N) = 1`) where `ComputeTangent` succeeds,
if the model-space light vector equals `N`, the stored light vector is
(1/2, 1/2, 1); and over the reals, for the unit triangle with normals (0,0,1),
texture coordinates (0,0), (1,0), (0,1), identity transform and world light
direction (0,0,-1,0), all three vertices end with (1/2, 1/2, 1). -/
theorem ComputeLightVectors_light_along_normal :
    (∀ (K : Type) [LinearOrderedField K] (sqrt : K → K) (vs : List (Vertex K))
      (v0 v1 v2 : Nat) (t : Vector3 K),
      ComputeTangent sqrt
        (vertexAt vs v0).position (vertexAt vs v0).baseTCoord
        (vertexAt vs v1).position (vertexAt vs v1).baseTCoord
        (vertexAt vs v2).position (vertexAt vs v2).baseTCoord = some t →
      Dot (vertexAt vs v0).normal (vertexAt vs v0).normal = 1 →
      ComputeLightVectors.lightVector sqrt (vertexAt vs v0).normal vs v0 v1 v2 =
        ⟨1 / 2, 1 / 2, 1⟩) ∧
    (vertexAt (ComputeLightVectors Real.sqrt (unitTriangleScenario ℝ)
        (lightAlongMinusZ ℝ)).vertexBuffer 0).lightDirection =
      ⟨1 / 2, 1 / 2, 1⟩ ∧
    (vertexAt (ComputeLightVectors Real.sqrt (unitTriangleScenario ℝ)
        (lightAlongMinusZ ℝ)).vertexBuffer 1).lightDirection =
      ⟨1 / 2, 1 / 2, 1⟩ ∧
    (vertexAt (ComputeLightVectors Real.sqrt (unitTriangleScenario ℝ)
        (lightAlongMinusZ ℝ)).vertexBuffer 2).lightDirection =
      ⟨1 / 2, 1 / 2, 1⟩ := by
  have hU : ComputeLightVectors.modelLightDirection (unitTriangleScenario ℝ).worldTransformHInverse
      (lightAlongMinusZ ℝ) =
      ⟨0, 0, 1⟩ := modelLightDirection_identity
  have h0 : ComputeLightVectors.lightVector Real.sqrt
      (ComputeLightVectors.modelLightDirection (unitTriangleScenario ℝ).worldTransformHInverse
          (lightAlongMinusZ ℝ))
      (unitTriangleScenario ℝ).vertexBuffer 0 1 2 = ⟨1 / 2, 1 / 2, 1⟩ := by
    rw [hU]
    exact lightVector_along_normal Real.sqrt (unitTriangleScenario ℝ).vertexBuffer 0 1 2 ⟨1, 0, 0⟩
      ComputeTangent_unit_corner0 (by norm_num [unitTriangleMesh, unitTriangleScenario,
          scaledScenario, downwardNormalScenario,
      equalTCoordScenario, shearedScenario, vertexAt, Dot])
  have h1 : ComputeLightVectors.lightVector Real.sqrt
      (ComputeLightVectors.modelLightDirection (unitTriangleScenario ℝ).worldTransformHInverse
          (lightAlongMinusZ ℝ))
      (unitTriangleScenario ℝ).vertexBuffer 1 2 0 = ⟨1 / 2, 1 / 2, 1⟩ := by
    rw [hU]
    exact lightVector_along_normal Real.sqrt (unitTriangleScenario ℝ).vertexBuffer 1 2 0 ⟨1, 0, 0⟩
      ComputeTangent_unit_corner1 (by norm_num [unitTriangleMesh, unitTriangleScenario,
          scaledScenario, downwardNormalScenario,
      equalTCoordScenario, shearedScenario, vertexAt, Dot])
  have h2 : ComputeLightVectors.lightVector Real.sqrt
      (ComputeLightVectors.modelLightDirection (unitTriangleScenario ℝ).worldTransformHInverse
          (lightAlongMinusZ ℝ))
      (unitTriangleScenario ℝ).vertexBuffer 2 0 1 = ⟨1 / 2, 1 / 2, 1⟩ := by
    rw [hU]
    exact lightVector_along_normal Real.sqrt (unitTriangleScenario ℝ).vertexBuffer 2 0 1 ⟨1, 0, 0⟩
      ComputeTangent_unit_corner2 (by norm_num [unitTriangleMesh, unitTriangleScenario,
          scaledScenario, downwardNormalScenario,
      equalTCoordScenario, shearedScenario, vertexAt, Dot])
  refine ⟨fun K _ sqrt vs v0 v1 v2 t hT hN =>
    lightVector_along_normal sqrt vs v0 v1 v2 t hT hN, ?_, ?_, ?_⟩
  · rw [light_ComputeLightVectors_first Real.sqrt (unitTriangleScenario ℝ)
      (lightAlongMinusZ ℝ) 0 1 2
      (by simp [unitTriangleMesh, unitTriangleScenario, scaledScenario, downwardNormalScenario,
      equalTCoordScenario, shearedScenario]) rfl (by rw [h0]; simp [zero]), h0]
  · rw [light_ComputeLightVectors_first Real.sqrt (unitTriangleScenario ℝ)
      (lightAlongMinusZ ℝ) 1 2 0
      (by simp [unitTriangleMesh, unitTriangleScenario, scaledScenario, downwardNormalScenario,
      equalTCoordScenario, shearedScenario]) rfl (by rw [h1]; simp [zero]), h1]
  · rw [light_ComputeLightVectors_first Real.sqrt (unitTriangleScenario ℝ)
      (lightAlongMinusZ ℝ) 2 0 1
      (by simp [unitTriangleMesh, unitTriangleScenario, scaledScenario, downwardNormalScenario,
      equalTCoordScenario, shearedScenario]) rfl (by rw [h2]; simp [zero]), h2]

/-- Instance of the general part of C14 over the reals: corner (0, 1, 2) of
the unit triangle with normal (0,0,1). -/
theorem ComputeLightVectors_light_along_normal_witness :
    ComputeTangent Real.sqrt
      (vertexAt (unitTriangleScenario ℝ).vertexBuffer 0).position (vertexAt
          (unitTriangleScenario ℝ).vertexBuffer 0).baseTCoord
      (vertexAt (unitTriangleScenario ℝ).vertexBuffer 1).position (vertexAt
          (unitTriangleScenario ℝ).vertexBuffer 1).baseTCoord
      (vertexAt (unitTriangleScenario ℝ).vertexBuffer 2).position (vertexAt
          (unitTriangleScenario ℝ).vertexBuffer 2).baseTCoord
      = some ⟨1, 0, 0⟩ ∧
    Dot (vertexAt (unitTriangleScenario ℝ).vertexBuffer 0).normal (vertexAt
        (unitTriangleScenario ℝ).vertexBuffer 0).normal = 1 ∧
    ComputeLightVectors.lightVector Real.sqrt (vertexAt
        (unitTriangleScenario ℝ).vertexBuffer 0).normal
      (unitTriangleScenario ℝ).vertexBuffer 0 1 2 = ⟨1 / 2, 1 / 2, 1⟩ :=
  have hT : ComputeTangent Real.sqrt
      (vertexAt (unitTriangleScenario ℝ).vertexBuffer 0).position (vertexAt
          (unitTriangleScenario ℝ).vertexBuffer 0).baseTCoord
      (vertexAt (unitTriangleScenario ℝ).vertexBuffer 1).position (vertexAt
          (unitTriangleScenario ℝ).vertexBuffer 1).baseTCoord
      (vertexAt (unitTriangleScenario ℝ).vertexBuffer 2).position (vertexAt
          (unitTriangleScenario ℝ).vertexBuffer 2).baseTCoord
      = some ⟨1, 0, 0⟩ := ComputeTangent_unit_corner0
  have hN : Dot (vertexAt (unitTriangleScenario ℝ).vertexBuffer 0).normal (vertexAt
      (unitTriangleScenario ℝ).vertexBuffer 0).normal
      = 1 := by norm_num [unitTriangleMesh, unitTriangleScenario, scaledScenario,
          downwardNormalScenario,
      equalTCoordScenario, shearedScenario, vertexAt, Dot]
  ⟨hT, hN, ComputeLightVectors_light_along_normal.1 ℝ Real.sqrt
      (unitTriangleScenario ℝ).vertexBuffer 0 1 2
    ⟨1, 0, 0⟩ hT hN⟩

/-- C16, the code at a failing input.  Over the reals, for a world transform
that scales by 2 (inverse matrix `diagonal (1/2) (1/2) (1/2) 1`) and the
unit-length world light direction (0,0,-1,0), the model-space light vector is
(0,0,1/2), of length 1/2, and it is used as it is: vertex 0 of the unit
triangle with normal (0,0,1) ends with (1/2, 1/2, 3/4) and not with
(1/2, 1/2, 1). -/
theorem ComputeLightVectors_light_not_normalized :
    ComputeLightVectors.modelLightDirection (Matrix4x4.diagonal (1 / 2 : ℝ) (1 / 2) (1 / 2) 1)
        (lightAlongMinusZ ℝ) = ⟨0, 0, 1 / 2⟩ ∧
    Length Real.sqrt (ComputeLightVectors.modelLightDirection (Matrix4x4.diagonal (1 / 2 : ℝ)
        (1 / 2) (1 / 2) 1) (lightAlongMinusZ ℝ)) = 1 / 2 ∧
    (vertexAt (ComputeLightVectors Real.sqrt (scaledScenario ℝ)
        (lightAlongMinusZ ℝ)).vertexBuffer 0).lightDirection =
      ⟨1 / 2, 1 / 2, 3 / 4⟩ := by
  have hU : ComputeLightVectors.modelLightDirection (Matrix4x4.diagonal (1 / 2 : ℝ) (1 / 2)
      (1 / 2) 1) (lightAlongMinusZ ℝ) = ⟨0, 0, 1 / 2⟩ := by
    norm_num [ComputeLightVectors.modelLightDirection, DoTransform, HProject,
      Matrix4x4.diagonal, Vector4.neg_def, lightAlongMinusZ, lightAlongX]
  have hL : Length Real.sqrt (⟨0, 0, 1 / 2⟩ : Vector3 ℝ) = 1 / 2 := by
    have e : Dot (⟨0, 0, 1 / 2⟩ : Vector3 ℝ) ⟨0, 0, 1 / 2⟩ = (1 / 2) ^ 2 := by
      norm_num [Dot]
    unfold Length
    rw [e]
    exact Real.sqrt_sq (by norm_num)
  have h0 : ComputeLightVectors.lightVector Real.sqrt
      (ComputeLightVectors.modelLightDirection (scaledScenario ℝ).worldTransformHInverse
          (lightAlongMinusZ ℝ))
      (scaledScenario ℝ).vertexBuffer 0 1 2 = ⟨1 / 2, 1 / 2, 3 / 4⟩ := by
    rw [lightVector_of_some Real.sqrt _ (scaledScenario ℝ).vertexBuffer 0 1 2 ⟨1, 0, 0⟩
      ComputeTangent_unit_corner0]
    have hU2 : ComputeLightVectors.modelLightDirection (scaledScenario ℝ).worldTransformHInverse
        (lightAlongMinusZ ℝ) =
        ⟨0, 0, 1 / 2⟩ := hU
    rw [hU2]
    norm_num [ComputeLightVectors.frameCoordinates, ComputeLightVectors.tangentFrame,
      UnitCross, Normalize, Cross, Length, Dot, Vector3.sub_def, Vector3.div_def,
      Vector3.smul_def, unitTriangleMesh, unitTriangleScenario, scaledScenario,
          downwardNormalScenario,
      equalTCoordScenario, shearedScenario, vertexAt]
  refine ⟨hU, by rw [hU]; exact hL, ?_⟩
  rw [light_ComputeLightVectors_first Real.sqrt (scaledScenario ℝ) (lightAlongMinusZ ℝ) 0 1 2
    (by simp [unitTriangleMesh, unitTriangleScenario, scaledScenario, downwardNormalScenario,
      equalTCoordScenario, shearedScenario]) rfl (by rw [h0]; simp [zero]), h0]

/-- C15, as stated, fails when the first corner produces (0,0,0).  Over the
reals: unit triangle with unit normals (0,0,1), texture coordinates (0,0),
(1,0), (1,0), index list 0,1,2,0,2,1, an inverse world matrix with a shear and
the unit world light direction (1,0,0,0), so that the model-space light vector
is (-1,-1,-1).  The first corner that references vertex 0 is (0, 1, 2) and
produces (0,0,0); the later corner (0, 2, 1) then stores (0,1,0), which is the
final value. -/
theorem ComputeLightVectors_first_corner_counterexample :
    0 < (shearedScenario ℝ).vertexBuffer.length ∧
    (cornerOrder (shearedScenario ℝ).indexBuffer).find? (fun c => decide (c.1 = 0)) =
      some (0, 1, 2) ∧
    ComputeLightVectors.lightVector Real.sqrt
      (ComputeLightVectors.modelLightDirection (shearedScenario ℝ).worldTransformHInverse
          (lightAlongX ℝ))
      (shearedScenario ℝ).vertexBuffer 0 1 2 = ⟨0, 0, 0⟩ ∧
    (vertexAt (ComputeLightVectors Real.sqrt (shearedScenario ℝ)
        (lightAlongX ℝ)).vertexBuffer 0).lightDirection =
      ⟨0, 1, 0⟩ ∧
    (vertexAt (ComputeLightVectors Real.sqrt (shearedScenario ℝ)
        (lightAlongX ℝ)).vertexBuffer 0).lightDirection ≠
      ComputeLightVectors.lightVector Real.sqrt
        (ComputeLightVectors.modelLightDirection (shearedScenario ℝ).worldTransformHInverse
            (lightAlongX ℝ))
        (shearedScenario ℝ).vertexBuffer 0 1 2 := by
  have hU : ComputeLightVectors.modelLightDirection (shearedScenario ℝ).worldTransformHInverse
      (lightAlongX ℝ) =
      ⟨-1, -1, -1⟩ := by
    norm_num [ComputeLightVectors.modelLightDirection, DoTransform, HProject,
      unitTriangleMesh, unitTriangleScenario, scaledScenario, downwardNormalScenario,
      equalTCoordScenario, shearedScenario, Vector4.neg_def, lightAlongMinusZ, lightAlongX]
  have hv : 0 < (shearedScenario ℝ).vertexBuffer.length := by simp [unitTriangleMesh,
      unitTriangleScenario, scaledScenario, downwardNormalScenario,
      equalTCoordScenario, shearedScenario]
  have h1 : ComputeLightVectors.lightVector Real.sqrt
      (ComputeLightVectors.modelLightDirection (shearedScenario ℝ).worldTransformHInverse
          (lightAlongX ℝ))
      (shearedScenario ℝ).vertexBuffer 0 1 2 = ⟨0, 0, 0⟩ := by
    rw [hU, lightVector_of_some Real.sqrt _ (shearedScenario ℝ).vertexBuffer 0 1 2 ⟨1, 0, 0⟩
      (by norm_num [unitTriangleMesh, unitTriangleScenario, scaledScenario, downwardNormalScenario,
      equalTCoordScenario, shearedScenario, vertexAt, ComputeTangent, Length, Dot, epsilon,
        Vector3.sub_def, Vector3.div_def])]
    norm_num [ComputeLightVectors.frameCoordinates, ComputeLightVectors.tangentFrame,
      UnitCross, Normalize, Cross, Length, Dot, Vector3.sub_def, Vector3.div_def,
      Vector3.smul_def, unitTriangleMesh, unitTriangleScenario, scaledScenario,
          downwardNormalScenario,
      equalTCoordScenario, shearedScenario, vertexAt]
  have h2 : ComputeLightVectors.lightVector Real.sqrt
      (ComputeLightVectors.modelLightDirection (shearedScenario ℝ).worldTransformHInverse
          (lightAlongX ℝ))
      (shearedScenario ℝ).vertexBuffer 0 2 1 = ⟨0, 1, 0⟩ := by
    rw [hU, lightVector_of_some Real.sqrt _ (shearedScenario ℝ).vertexBuffer 0 2 1 ⟨0, 1, 0⟩
      (by norm_num [unitTriangleMesh, unitTriangleScenario, scaledScenario, downwardNormalScenario,
      equalTCoordScenario, shearedScenario, vertexAt, ComputeTangent, Length, Dot, epsilon,
        Vector3.sub_def, Vector3.div_def])]
    norm_num [ComputeLightVectors.frameCoordinates, ComputeLightVectors.tangentFrame,
      UnitCross, Normalize, Cross, Length, Dot, Vector3.sub_def, Vector3.div_def,
      Vector3.smul_def, unitTriangleMesh, unitTriangleScenario, scaledScenario,
          downwardNormalScenario,
      equalTCoordScenario, shearedScenario, vertexAt]
  have hfin : (vertexAt (ComputeLightVectors Real.sqrt (shearedScenario ℝ)
      (lightAlongX ℝ)).vertexBuffer
      0).lightDirection = ⟨0, 1, 0⟩ := by
    rw [light_ComputeLightVectors Real.sqrt (shearedScenario ℝ) (lightAlongX ℝ) 0 hv]
    have hc : cornerOrder (shearedScenario ℝ).indexBuffer =
        [(0, 1, 2), (1, 2, 0), (2, 0, 1), (0, 2, 1), (2, 1, 0), (1, 0, 2)] := rfl
    rw [hc]
    simp [List.find?_cons, h1, h2, zero]
  refine ⟨hv, rfl, h1, hfin, ?_⟩
  rw [hfin, h1]
  simp

/-- Instance of C15 (amended) over the reals: vertex 0 of the unit triangle
with normal (0,0,1), identity transform and light direction (0,0,-1,0); its
first corner (0, 1, 2) produces (1/2, 1/2, 1). -/
theorem ComputeLightVectors_first_corner_wins_witness :
    0 < (unitTriangleScenario ℝ).vertexBuffer.length ∧
    (cornerOrder (unitTriangleScenario ℝ).indexBuffer).find? (fun c => decide (c.1 = 0)) =
      some (0, 1, 2) ∧
    ComputeLightVectors.lightVector Real.sqrt
      (ComputeLightVectors.modelLightDirection (unitTriangleScenario ℝ).worldTransformHInverse
          (lightAlongMinusZ ℝ))
      (unitTriangleScenario ℝ).vertexBuffer 0 1 2 ≠ zero ∧
    (vertexAt (ComputeLightVectors Real.sqrt (unitTriangleScenario ℝ)
        (lightAlongMinusZ ℝ)).vertexBuffer 0).lightDirection =
      ComputeLightVectors.lightVector Real.sqrt
        (ComputeLightVectors.modelLightDirection (unitTriangleScenario ℝ).worldTransformHInverse
            (lightAlongMinusZ ℝ))
        (unitTriangleScenario ℝ).vertexBuffer 0 1 2 :=
  have hv : 0 < (unitTriangleScenario ℝ).vertexBuffer.length := by simp [unitTriangleMesh,
      unitTriangleScenario, scaledScenario, downwardNormalScenario,
      equalTCoordScenario, shearedScenario]
  have hfirst : (cornerOrder (unitTriangleScenario ℝ).indexBuffer).find? (fun c => decide (c.1 =
      0)) =
      some (0, 1, 2) := rfl
  have hne : ComputeLightVectors.lightVector Real.sqrt
      (ComputeLightVectors.modelLightDirection (unitTriangleScenario ℝ).worldTransformHInverse
          (lightAlongMinusZ ℝ))
      (unitTriangleScenario ℝ).vertexBuffer 0 1 2 ≠ zero := by
    have hU : ComputeLightVectors.modelLightDirection
        (unitTriangleScenario ℝ).worldTransformHInverse (lightAlongMinusZ ℝ) =
        ⟨0, 0, 1⟩ := modelLightDirection_identity
    have hl : ComputeLightVectors.lightVector Real.sqrt ⟨0, 0, 1⟩
        (unitTriangleScenario ℝ).vertexBuffer 0 1 2 =
        ⟨1 / 2, 1 / 2, 1⟩ :=
      lightVector_along_normal Real.sqrt (unitTriangleScenario ℝ).vertexBuffer 0 1 2 ⟨1, 0, 0⟩
        ComputeTangent_unit_corner0 (by norm_num [unitTriangleMesh, unitTriangleScenario,
            scaledScenario, downwardNormalScenario,
      equalTCoordScenario, shearedScenario, vertexAt, Dot])
    rw [hU, hl]
    simp [zero]
  ⟨hv, hfirst, hne,
    (ComputeLightVectors_first_corner_wins Real.sqrt (unitTriangleScenario ℝ)
        (lightAlongMinusZ ℝ) 0 1 2 hv hfirst hne).1⟩

/-- C18: the degenerate-triangle test of `ComputeTangent` looks only at the
edge P1-P0.  Over the reals, with `position2` equal to `position0` =
(0,0,0), `position1` = (1,0,0) and texture coordinates (0,0), (1,0), (0,1),
it returns `true` (with tangent (1,0,0)); and whenever `|dv1| <= eps` the
result, flag and tangent, is the same for every choice of `position2` and
`tcoord2`. -/
theorem ComputeTangent_ignores_second_edge :
    ComputeTangent Real.sqrt (⟨0, 0, 0⟩ : Vector3 ℝ) ⟨0, 0⟩ ⟨1, 0, 0⟩ ⟨1, 0⟩
      ⟨0, 0, 0⟩ ⟨0, 1⟩ = some ⟨1, 0, 0⟩ ∧
    (∀ (K : Type) [LinearOrderedField K] (sqrt : K → K) (p0 p1 p2 q2 : Vector3 K)
      (t0 t1 t2 s2 : Vector2 K), |t1.y - t0.y| ≤ epsilon →
      ComputeTangent sqrt p0 t0 p1 t1 p2 t2 = ComputeTangent sqrt p0 t0 p1 t1 q2 s2) := by
  constructor
  · norm_num [ComputeTangent, Length, Dot, epsilon, Vector3.sub_def, Vector3.div_def]
  · intro K _ sqrt p0 p1 p2 q2 t0 t1 t2 s2 h
    unfold ComputeTangent
    simp only [or_self, if_pos h]

/-- Instance of the second part of C18 over the reals: `dv1 = 0`, and two
different third corners. -/
theorem ComputeTangent_ignores_second_edge_witness :
    |(0 : ℝ) - 0| ≤ epsilon ∧
    ComputeTangent Real.sqrt (⟨0, 0, 0⟩ : Vector3 ℝ) ⟨0, 0⟩ ⟨1, 0, 0⟩ ⟨1, 0⟩
      ⟨0, 1, 0⟩ ⟨0, 1⟩ =
    ComputeTangent Real.sqrt (⟨0, 0, 0⟩ : Vector3 ℝ) ⟨0, 0⟩ ⟨1, 0, 0⟩ ⟨1, 0⟩
      ⟨0, 0, 0⟩ ⟨5, 7⟩ :=
  have h : |(0 : ℝ) - 0| ≤ epsilon := by norm_num [epsilon]
  ⟨h, ComputeTangent_ignores_second_edge.2 ℝ Real.sqrt ⟨0, 0, 0⟩ ⟨1, 0, 0⟩ ⟨0, 1, 0⟩
    ⟨0, 0, 0⟩ ⟨0, 0⟩ ⟨1, 0⟩ ⟨0, 1⟩ ⟨5, 7⟩ h⟩

/-- Instance of the first part of C19 over the reals: the unit triangle with
stale light vectors (1,1,1), and the same mesh with all light vectors set to
(0,0,0) beforehand. -/
theorem ComputeLightVectors_independent_of_old_light_witness :
    (vertexAt (unitTriangleScenario ℝ).vertexBuffer 0).lightDirection ≠
      (vertexAt (ComputeLightVectors.reset
          (unitTriangleScenario ℝ).vertexBuffer) 0).lightDirection ∧
    ComputeLightVectors Real.sqrt (unitTriangleScenario ℝ) (lightAlongMinusZ ℝ) =
      ComputeLightVectors Real.sqrt
        { (unitTriangleScenario ℝ) with vertexBuffer := ComputeLightVectors.reset (unitTriangleScenario ℝ).vertexBuffer } (lightAlongMinusZ ℝ) :=
  have hdiff : (vertexAt (unitTriangleScenario ℝ).vertexBuffer 0).lightDirection ≠
      (vertexAt (ComputeLightVectors.reset
          (unitTriangleScenario ℝ).vertexBuffer) 0).lightDirection := by
    simp [unitTriangleMesh, unitTriangleScenario, scaledScenario, downwardNormalScenario,
      equalTCoordScenario, shearedScenario, vertexAt, ComputeLightVectors.reset, zero]
  ⟨hdiff, (ComputeLightVectors_independent_of_old_light Real.sqrt (lightAlongMinusZ ℝ)).1
      (unitTriangleScenario ℝ)
    { (unitTriangleScenario ℝ) with vertexBuffer := ComputeLightVectors.reset (unitTriangleScenario ℝ).vertexBuffer } rfl rfl
    (length_reset _).symm
    (fun i _ => by
      have h := vertexAt_reset (unitTriangleScenario ℝ).vertexBuffer i
      show (vertexAt (unitTriangleScenario ℝ).vertexBuffer i).position =
          (vertexAt (ComputeLightVectors.reset (unitTriangleScenario ℝ).vertexBuffer) i).position ∧
        (vertexAt (unitTriangleScenario ℝ).vertexBuffer i).normal =
          (vertexAt (ComputeLightVectors.reset (unitTriangleScenario ℝ).vertexBuffer) i).normal ∧
        (vertexAt (unitTriangleScenario ℝ).vertexBuffer i).baseTCoord =
          (vertexAt (ComputeLightVectors.reset
              (unitTriangleScenario ℝ).vertexBuffer) i).baseTCoord ∧
        (vertexAt (unitTriangleScenario ℝ).vertexBuffer i).normalTCoord =
          (vertexAt (ComputeLightVectors.reset
              (unitTriangleScenario ℝ).vertexBuffer) i).normalTCoord
      rw [h]
      exact ⟨rfl, rfl, rfl, rfl⟩)⟩

/-- Instance of C20 over the reals: corner (0, 1, 2) of the unit triangle with
normal (0,0,1), and the light vector (0,0,1). -/
theorem lightVector_in_unit_cube_witness :
    ComputeTangent Real.sqrt
      (vertexAt (unitTriangleScenario ℝ).vertexBuffer 0).position (vertexAt
          (unitTriangleScenario ℝ).vertexBuffer 0).baseTCoord
      (vertexAt (unitTriangleScenario ℝ).vertexBuffer 1).position (vertexAt
          (unitTriangleScenario ℝ).vertexBuffer 1).baseTCoord
      (vertexAt (unitTriangleScenario ℝ).vertexBuffer 2).position (vertexAt
          (unitTriangleScenario ℝ).vertexBuffer 2).baseTCoord
      = some ⟨1, 0, 0⟩ ∧
    Length Real.sqrt (vertexAt (unitTriangleScenario ℝ).vertexBuffer 0).normal = 1 ∧
    Length Real.sqrt (⟨0, 0, 1⟩ : Vector3 ℝ) ≤ 1 ∧
    (0 ≤ (ComputeLightVectors.lightVector Real.sqrt ⟨0, 0, 1⟩
        (unitTriangleScenario ℝ).vertexBuffer 0 1 2).x ∧
      (ComputeLightVectors.lightVector Real.sqrt ⟨0, 0, 1⟩
          (unitTriangleScenario ℝ).vertexBuffer 0 1 2).x ≤ 1) ∧
    (0 ≤ (ComputeLightVectors.lightVector Real.sqrt ⟨0, 0, 1⟩
        (unitTriangleScenario ℝ).vertexBuffer 0 1 2).y ∧
      (ComputeLightVectors.lightVector Real.sqrt ⟨0, 0, 1⟩
          (unitTriangleScenario ℝ).vertexBuffer 0 1 2).y ≤ 1) ∧
    (0 ≤ (ComputeLightVectors.lightVector Real.sqrt ⟨0, 0, 1⟩
        (unitTriangleScenario ℝ).vertexBuffer 0 1 2).z ∧
      (ComputeLightVectors.lightVector Real.sqrt ⟨0, 0, 1⟩
          (unitTriangleScenario ℝ).vertexBuffer 0 1 2).z ≤ 1) :=
  have hT : ComputeTangent Real.sqrt
      (vertexAt (unitTriangleScenario ℝ).vertexBuffer 0).position (vertexAt
          (unitTriangleScenario ℝ).vertexBuffer 0).baseTCoord
      (vertexAt (unitTriangleScenario ℝ).vertexBuffer 1).position (vertexAt
          (unitTriangleScenario ℝ).vertexBuffer 1).baseTCoord
      (vertexAt (unitTriangleScenario ℝ).vertexBuffer 2).position (vertexAt
          (unitTriangleScenario ℝ).vertexBuffer 2).baseTCoord
      = some ⟨1, 0, 0⟩ := ComputeTangent_unit_corner0
  have hN : Length Real.sqrt (vertexAt (unitTriangleScenario ℝ).vertexBuffer 0).normal = 1 := by
    norm_num [unitTriangleMesh, unitTriangleScenario, scaledScenario, downwardNormalScenario,
      equalTCoordScenario, shearedScenario, vertexAt, Length, Dot]
  have hU : Length Real.sqrt (⟨0, 0, 1⟩ : Vector3 ℝ) ≤ 1 := by
    norm_num [Length, Dot]
  ⟨hT, hN, hU,
    (lightVector_in_unit_cube ⟨0, 0, 1⟩ (unitTriangleScenario ℝ).vertexBuffer 0 1 2 ⟨1, 0,
        0⟩ hT hN hU).2⟩

/-- Instance of C11 (amended) over the reals: vertex 0 of the unit triangle
with normals (0,0,1), identity transform and light direction (0,0,-1,0). -/
theorem ComputeLightVectors_normal_or_unit_cube_witness :
    (∀ i, i < (unitTriangleScenario ℝ).vertexBuffer.length →
      Length Real.sqrt (vertexAt (unitTriangleScenario ℝ).vertexBuffer i).normal = 1) ∧
    Length Real.sqrt
      (ComputeLightVectors.modelLightDirection (unitTriangleScenario ℝ).worldTransformHInverse
          (lightAlongMinusZ ℝ)) ≤ 1 ∧
    ((vertexAt (ComputeLightVectors Real.sqrt (unitTriangleScenario ℝ)
        (lightAlongMinusZ ℝ)).vertexBuffer 0).lightDirection =
      (vertexAt (ComputeLightVectors Real.sqrt (unitTriangleScenario ℝ)
          (lightAlongMinusZ ℝ)).vertexBuffer 0).normal ∨
    ((0 ≤ (vertexAt (ComputeLightVectors Real.sqrt (unitTriangleScenario ℝ)
        (lightAlongMinusZ ℝ)).vertexBuffer 0).lightDirection.x ∧
      (vertexAt (ComputeLightVectors Real.sqrt (unitTriangleScenario ℝ)
          (lightAlongMinusZ ℝ)).vertexBuffer 0).lightDirection.x ≤ 1) ∧
     (0 ≤ (vertexAt (ComputeLightVectors Real.sqrt (unitTriangleScenario ℝ)
         (lightAlongMinusZ ℝ)).vertexBuffer 0).lightDirection.y ∧
      (vertexAt (ComputeLightVectors Real.sqrt (unitTriangleScenario ℝ)
          (lightAlongMinusZ ℝ)).vertexBuffer 0).lightDirection.y ≤ 1) ∧
     (0 ≤ (vertexAt (ComputeLightVectors Real.sqrt (unitTriangleScenario ℝ)
         (lightAlongMinusZ ℝ)).vertexBuffer 0).lightDirection.z ∧
      (vertexAt (ComputeLightVectors Real.sqrt (unitTriangleScenario ℝ)
          (lightAlongMinusZ ℝ)).vertexBuffer 0).lightDirection.z ≤ 1))) :=
  have hN : ∀ i, i < (unitTriangleScenario ℝ).vertexBuffer.length →
      Length Real.sqrt (vertexAt (unitTriangleScenario ℝ).vertexBuffer i).normal = 1 := by
    intro i hi
    have hi3 : i < 3 := by simpa [unitTriangleMesh, unitTriangleScenario, scaledScenario,
        downwardNormalScenario,
      equalTCoordScenario, shearedScenario] using hi
    interval_cases i <;> norm_num [unitTriangleMesh, unitTriangleScenario, scaledScenario,
        downwardNormalScenario,
      equalTCoordScenario, shearedScenario, vertexAt, Length, Dot]
  have hU : Length Real.sqrt
      (ComputeLightVectors.modelLightDirection (unitTriangleScenario ℝ).worldTransformHInverse
          (lightAlongMinusZ ℝ)) ≤ 1 := by
    have e : ComputeLightVectors.modelLightDirection (unitTriangleScenario ℝ).worldTransformHInverse
        (lightAlongMinusZ ℝ) =
        ⟨0, 0, 1⟩ := modelLightDirection_identity
    rw [e]
    norm_num [Length, Dot]
  ⟨hN, hU, ComputeLightVectors_normal_or_unit_cube (unitTriangleScenario ℝ)
      (lightAlongMinusZ ℝ) hN hU 0
    (by simp [unitTriangleMesh, unitTriangleScenario, scaledScenario, downwardNormalScenario,
      equalTCoordScenario, shearedScenario])⟩

end Scenarios

end gte
